import Mathlib

/-! Verification of the Sugar shell `HomeModel` activity registry.

Shallow embedding of `src/shell/model/homemodel.py`: the registry of running
activities, its `active`/`pending` selectors, the window-manager event
callbacks, and the launcher notifications.  Python object identity is
modelled by a unique allocation tag `oid` on every `HomeActivity` record;
emitted gobject signals, remote `SetActive` calls and log messages are
collected in an emission trace, each paired with the registry state at the
moment of emission (signals are dispatched synchronously, so subscribers
observe exactly that state).
-/

namespace Sugar

/-- Window types distinguished by the code (`wnck.WINDOW_NORMAL`,
`wnck.WINDOW_DIALOG`, anything else). -/
inductive WType where
  | normal
  | dialog
  | other
deriving DecidableEq

/-- Modelled from the spec: a window-manager (wnck) window, an external
collaborator not under `src/`.  It exposes an identifier (`xid`), a type, a
transient-parent link, and the `activity-id` / `bundle-id` properties read
through the `sugar.wm` helpers. -/
structure Window where
  xid : Nat
  wtype : WType
  transient : Option Nat
  activity_id : Option String
  bundle_id : Option String
deriving DecidableEq

/-- Modelled from the spec: the wnck screen, an external collaborator not
under `src/`.  `stacked` is the window stack in bottom-to-top order
(`get_windows_stacked`); `active` is the xid of the currently active window,
if any (`get_active_window`). -/
structure Screen where
  stacked : List Window
  active : Option Nat
deriving DecidableEq

/-- Modelled from the spec: the lightweight `HomeActivity` record type
(`model/homeactivity.py`), which is not under `src/`.  `oid` is a unique
allocation tag standing for Python object identity; `window` holds the xid
of the attached window (`set_window`/`get_window`/`get_xid`), `launching`
is the `launching` property, and `service` records whether the record
exposes a remote control service (`get_service`). -/
structure HomeActivity where
  oid : Nat
  activity_id : Option String
  activity_info : Option String
  window : Option Nat
  launching : Bool
  service : Bool
deriving DecidableEq

/-- One observable output of the registry: a gobject signal emission, a
remote `SetActive` call, or a log message. -/
inductive Sig where
  | activityAdded (oid : Nat)
  | activityStarted (oid : Nat)
  | activityRemoved (oid : Nat)
  | activeActivityChanged (o : Option Nat)
  | pendingActivityChanged (o : Option Nat)
  | remoteSetActive (oid : Nat) (b : Bool)
  | logError (msg : String)
  | logDebug (msg : String)
deriving DecidableEq

/-- The `HomeModel` state: the ordered activity list and the two selectors,
which reference records by their identity tag.  `nextOid` is the allocator
for fresh identity tags. -/
structure HomeModel where
  activities : List HomeActivity
  active : Option Nat
  pending : Option Nat
  nextOid : Nat
deriving DecidableEq

/-- An emission together with the registry state at the moment it fires
(signal dispatch is synchronous). -/
abbrev Emission := Sig × HomeModel

/-- Python truthiness of an optional string (`None` and `""` are falsy). -/
def truthy : Option String → Bool
  | none => false
  | some s => !s.isEmpty

/-- Embeds `HomeModel._get_activities_with_window`. -/
def get_activities_with_window (m : HomeModel) : List HomeActivity :=
  m.activities.filter (fun r => r.window.isSome)

/-- Embeds `HomeModel._get_activity_by_xid`: first record whose window has the
given xid, if any. -/
def get_activity_by_xid (m : HomeModel) (xid : Nat) : Option HomeActivity :=
  m.activities.find? (fun r => r.window == some xid)

/-- Embeds `HomeModel._get_activity_by_id`: first record whose `activity_id`
equals the given one (Python `==`, so `None == None` matches), if any. -/
def get_activity_by_id (m : HomeModel) (aid : Option String) : Option HomeActivity :=
  m.activities.find? (fun r => r.activity_id == aid)

/-- Embeds `HomeModel.get_previous_activity`.  Python `list.index` raises `ValueError`
when the pending activity is not in the windowed list, which happens before
the `len(activities) == 0` guard is ever tested. -/
def get_previous_activity (m : HomeModel) : Except String (Option HomeActivity) :=
  let activities := get_activities_with_window m
  match activities.findIdx? (fun r => some r.oid == m.pending) with
  | none => .error "ValueError: list.index(x): x not in list"
  | some i =>
    if activities.length == 0 then .ok none
    else if i ≥ 1 then .ok (activities.get? (i - 1))
    else .ok (activities.get? (activities.length - 1))

/-- Embeds `HomeModel.get_next_activity`.  Same `list.index` behaviour as
`get_previous_activity`. -/
def get_next_activity (m : HomeModel) : Except String (Option HomeActivity) :=
  let activities := get_activities_with_window m
  match activities.findIdx? (fun r => some r.oid == m.pending) with
  | none => .error "ValueError: list.index(x): x not in list"
  | some i =>
    if activities.length == 0 then .ok none
    else if i + 1 < activities.length then .ok (activities.get? (i + 1))
    else .ok (activities.get? 0)

/-- Embeds `HomeModel._set_pending_activity`: idempotent setter, emits
`pending-activity-changed` only on change. -/
def set_pending_activity (m : HomeModel) (h : Option Nat) :
    HomeModel × List Emission :=
  if m.pending == h then (m, [])
  else
    let m' := { m with pending := h }
    (m', [(Sig.pendingActivityChanged h, m')])

/-- Record lookup by identity tag. -/
def findByOid (m : HomeModel) (o : Nat) : Option HomeActivity :=
  m.activities.find? (fun r => r.oid == o)

/-- The `SetActive` remote call issued for one side of an active-activity
change, when the affected record exposes a remote service. -/
def setActiveCall (m : HomeModel) (o : Option Nat) (b : Bool) : List Emission :=
  match o with
  | none => []
  | some a =>
    match findByOid m a with
    | some r => if r.service then [(Sig.remoteSetActive a b, m)] else []
    | none => []

/-- Embeds `HomeModel._set_active_activity`: idempotent setter; on change it first
issues `SetActive(False)` to the outgoing and `SetActive(True)` to the
incoming record (when each exposes a service), then assigns and emits
`active-activity-changed`. -/
def set_active_activity (m : HomeModel) (h : Option Nat) :
    HomeModel × List Emission :=
  if m.active == h then (m, [])
  else
    let e1 := setActiveCall m m.active false
    let e2 := setActiveCall m h true
    let m' := { m with active := h }
    (m', e1 ++ e2 ++ [(Sig.activeActivityChanged h, m')])

/-- Embeds `HomeModel._add_activity`: append the record and emit `activity-added`. -/
def add_activity (m : HomeModel) (r : HomeActivity) : HomeModel × List Emission :=
  let m' := { m with activities := m.activities ++ [r] }
  (m', [(Sig.activityAdded r.oid, m')])

/-- In-place mutation of the record with the given identity tag
(`set_window`, `props.launching = ...`). -/
def setRecord (m : HomeModel) (o : Nat) (f : HomeActivity → HomeActivity) :
    HomeModel :=
  { m with activities := m.activities.map (fun r => if r.oid == o then f r else r) }

/-- Embeds `HomeModel._window_opened_cb`: for a normal window, resolve the
activity id and bundle metadata, reuse the record with the same activity id
if one exists (otherwise create and add a fresh one), attach the window,
clear `launching`, emit `activity-started`, and set `pending` if it was
none.  `reg` is the bundle registry collaborator
(`activity.get_registry().get_activity`). -/
def window_opened_cb (reg : Option String → Option String) (m : HomeModel)
    (w : Window) : HomeModel × List Emission :=
  if w.wtype == WType.normal then
    let activity_id := w.activity_id
    let activity_info : Option String :=
      if truthy w.bundle_id then reg w.bundle_id else none
    let existing : Option HomeActivity :=
      if truthy activity_id then get_activity_by_id m activity_id else none
    let step1 : HomeModel × List Emission × Nat :=
      match existing with
      | some r => (m, [], r.oid)
      | none =>
        let r : HomeActivity :=
          { oid := m.nextOid, activity_id := activity_id,
            activity_info := activity_info, window := none,
            launching := false, service := false }
        let m0 := { m with nextOid := m.nextOid + 1 }
        let (m1, e1) := add_activity m0 r
        (m1, e1, r.oid)
    let m1 := step1.1
    let e1 := step1.2.1
    let o := step1.2.2
    let m2 := setRecord m1 o
      (fun r => { r with window := some w.xid, launching := false })
    let e2 : List Emission := [(Sig.activityStarted o, m2)]
    let step3 : HomeModel × List Emission :=
      if m2.pending.isNone then set_pending_activity m2 (some o) else (m2, [])
    (step3.1, e1 ++ e2 ++ step3.2)
  else (m, [])

/-- The replacement-pending scan of `HomeModel._remove_activity`: walk the
screen's window stack top-to-bottom (`get_windows_stacked` reversed) and
return the first tracked record, if any. -/
def scanPending (scr : Screen) (m : HomeModel) : Option HomeActivity :=
  (scr.stacked.reverse.filterMap (fun w => get_activity_by_xid m w.xid)).head?

/-- Python `list.remove`: delete the first element identical to the given
record (identified here by its identity tag). -/
def eraseOid : List HomeActivity → Nat → List HomeActivity
  | [], _ => []
  | r :: rs, o => if r.oid == o then rs else r :: eraseOid rs o

/-- Embeds `HomeModel._remove_activity`: clear `active` if the record is active,
recompute `pending` from the window stack if the record is pending, emit
`activity-removed`, and only then drop the record from the list. -/
def remove_activity (scr : Screen) (m : HomeModel) (oid : Nat) :
    HomeModel × List Emission :=
  let step1 : HomeModel × List Emission :=
    if m.active == some oid then set_active_activity m none else (m, [])
  let m1 := step1.1
  let step2 : HomeModel × List Emission :=
    if m1.pending == some oid then
      match scanPending scr m1 with
      | some a => set_pending_activity m1 (some a.oid)
      | none =>
        let p := set_pending_activity m1 none
        (p.1, (Sig.logError "No activities are running", m1) :: p.2)
    else (m1, [])
  let m2 := step2.1
  let e3 : List Emission := [(Sig.activityRemoved oid, m2)]
  let m3 := { m2 with activities := eraseOid m2.activities oid }
  (m3, step1.2 ++ step2.2 ++ e3)

/-- Embeds `HomeModel._remove_activity_by_xid`: look the record up by window xid;
if absent, log an error and do nothing else. -/
def remove_activity_by_xid (scr : Screen) (m : HomeModel) (xid : Nat) :
    HomeModel × List Emission :=
  match get_activity_by_xid m xid with
  | some r => remove_activity scr m r.oid
  | none => (m, [(Sig.logError "Model for window does not exist.", m)])

/-- Embeds `HomeModel._window_closed_cb`: only normal windows are handled. -/
def window_closed_cb (scr : Screen) (m : HomeModel) (w : Window) :
    HomeModel × List Emission :=
  if w.wtype == WType.normal then remove_activity_by_xid scr m w.xid
  else (m, [])

/-- Embeds `wnck.Window.get_transient`: resolve the transient-parent xid against
the screen. -/
def getTransient (scr : Screen) (w : Window) : Option Window :=
  match w.transient with
  | none => none
  | some p => scr.stacked.find? (fun v => v.xid == p)

/-- The `while window.get_transient() is not None` walk of
`_active_window_changed_cb`, with fuel bounding the chain length. -/
def resolveTransient (scr : Screen) : Nat → Window → Window
  | 0, w => w
  | fuel + 1, w =>
    match getTransient scr w with
    | none => w
    | some p => resolveTransient scr fuel p

/-- Embeds `HomeModel._active_window_changed_cb`: read the active window, walk to
the topmost non-transient ancestor unless it is a dialog, and if the
resolved window belongs to a tracked record make it pending and active. -/
def active_window_changed_cb (scr : Screen) (m : HomeModel) :
    HomeModel × List Emission :=
  let aw : Option Window :=
    match scr.active with
    | none => none
    | some x => scr.stacked.find? (fun v => v.xid == x)
  match aw with
  | none => (m, [])
  | some w0 =>
    let w := if w0.wtype != WType.dialog
             then resolveTransient scr scr.stacked.length w0 else w0
    match get_activity_by_xid m w.xid with
    | some a =>
      let p1 := set_pending_activity m (some a.oid)
      let p2 := set_active_activity p1.1 (some a.oid)
      (p2.1, p1.2 ++ p2.2)
    | none => (m, [])

/-- Embeds `HomeModel.notify_activity_launch`: resolve bundle metadata; raise
`ValueError` (before any state change) when the registry cannot; otherwise
create a launching record and add it. -/
def notify_activity_launch (reg : Option String → Option String)
    (m : HomeModel) (activity_id service_name : Option String) :
    Except String (HomeModel × List Emission) :=
  match reg service_name with
  | none =>
    .error "ValueError: Activity service name was not found in the bundle registry."
  | some info =>
    let r : HomeActivity :=
      { oid := m.nextOid, activity_id := activity_id,
        activity_info := some info, window := none,
        launching := true, service := false }
    let m0 := { m with nextOid := m.nextOid + 1 }
    .ok (add_activity m0 r)

/-- Embeds `HomeModel.notify_activity_launch_failed`: remove the record with the
given activity id, or log an error if there is none. -/
def notify_activity_launch_failed (scr : Screen) (m : HomeModel)
    (activity_id : Option String) : HomeModel × List Emission :=
  match get_activity_by_id m activity_id with
  | some r =>
    let p := remove_activity scr m r.oid
    (p.1, (Sig.logDebug "Activity launch failed", m) :: p.2)
  | none => (m, [(Sig.logError "Model for activity id does not exist.", m)])

/-! The event system.

Modelled from the spec: the combined state of the window-manager
collaborator (the wnck screen) and the registry, and the inbound events
that drive it.  The window manager never reports two live windows with the
same xid; a window-closed signal fires after the window has left the
screen's stack; a newly opened window is mapped on top of the stack. -/

/-- Combined state: the external wnck screen plus the registry. -/
structure Sys where
  scr : Screen
  hm : HomeModel
deriving DecidableEq

/-- The xids of the windows currently on the screen. -/
def stackXids (scr : Screen) : List Nat :=
  scr.stacked.map Window.xid

/-- Inbound events: the three wnck screen signals (plus an environment
restack and a change of the active window) and the two launcher
notifications. -/
inductive Event where
  | winOpened (w : Window)
  | winClosed (xid : Nat)
  | activeWinChanged (x : Option Nat)
  | raiseWin (xid : Nat)
  | launch (activity_id service_name : Option String)
  | launchFailed (activity_id : Option String)

/-- Modelled from the spec: one event delivery.  The window manager state
changes first (window mapped/unmapped, stacking or active window updated),
then the connected `HomeModel` callback runs.  A `launch` whose bundle
lookup raises leaves the registry unchanged (the exception propagates to
the launcher before any mutation). -/
def stepEv (reg : Option String → Option String) (s : Sys) :
    Event → Sys × List Emission
  | .winOpened w =>
    if w.xid ∈ stackXids s.scr then (s, [])
    else
      let scr' := { s.scr with stacked := s.scr.stacked ++ [w] }
      let p := window_opened_cb reg s.hm w
      (⟨scr', p.1⟩, p.2)
  | .winClosed x =>
    match s.scr.stacked.find? (fun v => v.xid == x) with
    | none => (s, [])
    | some w =>
      let scr' := { s.scr with stacked := s.scr.stacked.filter (fun v => v.xid != x) }
      let p := window_closed_cb scr' s.hm w
      (⟨scr', p.1⟩, p.2)
  | .activeWinChanged x =>
    let scr' := { s.scr with active := x }
    let p := active_window_changed_cb scr' s.hm
    (⟨scr', p.1⟩, p.2)
  | .raiseWin x =>
    match s.scr.stacked.find? (fun v => v.xid == x) with
    | none => (s, [])
    | some w =>
      (⟨{ s.scr with stacked := s.scr.stacked.filter (fun v => v.xid != x) ++ [w] },
        s.hm⟩, [])
  | .launch aid sname =>
    match notify_activity_launch reg s.hm aid sname with
    | .error _ => (s, [])
    | .ok p => (⟨s.scr, p.1⟩, p.2)
  | .launchFailed aid =>
    let p := notify_activity_launch_failed s.scr s.hm aid
    (⟨s.scr, p.1⟩, p.2)

/-- The initial state: empty screen, empty registry. -/
def initSys : Sys :=
  ⟨⟨[], none⟩, ⟨[], none, none, 0⟩⟩

/-- Run a sequence of events from a state, keeping only the final state. -/
def runEvents (reg : Option String → Option String) (s : Sys) :
    List Event → Sys
  | [] => s
  | e :: es => runEvents reg (stepEv reg s e).1 es

/-- States reachable from the initial state by any event sequence. -/
inductive Reach (reg : Option String → Option String) : Sys → Prop where
  | init : Reach reg initSys
  | step (s : Sys) (e : Event) : Reach reg s → Reach reg (stepEv reg s e).1

/-- The in-place mutation performed on a record by `_window_opened_cb`:
`set_window(window)` followed by `props.launching = False`. -/
def attachWindow (m : HomeModel) (o : Nat) (x : Nat) : HomeModel :=
  setRecord m o (fun r => { r with window := some x, launching := false })

/-- The record freshly created by `_window_opened_cb` when no existing
record matches. -/
def openedRecord (reg : Option String → Option String) (m : HomeModel)
    (w : Window) : HomeActivity :=
  { oid := m.nextOid, activity_id := w.activity_id,
    activity_info := if truthy w.bundle_id then reg w.bundle_id else none,
    window := none, launching := false, service := false }

/-- The inductive invariant tying the registry to the window-manager
state.  `oid` tags are pairwise distinct and below the allocator; every
attached window is a normal window on the screen; no two records share a
window; and the pending selector is none only when no record has a window,
while any tracked record it references has one. -/
structure MInv (scr : Screen) (m : HomeModel) : Prop where
  stackNodup : (scr.stacked.map Window.xid).Nodup
  oidsNodup : (m.activities.map HomeActivity.oid).Nodup
  oidsLt : ∀ r ∈ m.activities, r.oid < m.nextOid
  winInStack : ∀ r ∈ m.activities, ∀ x, r.window = some x →
    ∃ w ∈ scr.stacked, w.xid = x ∧ w.wtype = WType.normal
  winUnique : ∀ r₁ ∈ m.activities, ∀ r₂ ∈ m.activities, ∀ x,
    r₁.window = some x → r₂.window = some x → r₁.oid = r₂.oid
  pendLt : ∀ o, m.pending = some o → o < m.nextOid
  pendNone : m.pending = none → ∀ r ∈ m.activities, r.window = none
  pendWin : ∀ o, m.pending = some o → ∀ r ∈ m.activities, r.oid = o →
    r.window.isSome = true

/-- The invariant on combined states. -/
def Inv (s : Sys) : Prop := MInv s.scr s.hm

/-- The distinct-activity-id property claimed by the spec, on the list of
`activity_id` fields: no later record repeats a truthy (non-absent) id. -/
def AidsOk (m : HomeModel) : Prop :=
  (m.activities.map HomeActivity.activity_id).Pairwise
    (fun a b => truthy a = true → a ≠ b)

/-- Launcher discipline for the amended C8 claim: a launch notification
never reuses a non-absent activity id that is already tracked. -/
def LaunchOk (s : Sys) : Event → Prop
  | .launch aid _ => truthy aid = true → get_activity_by_id s.hm aid = none
  | _ => True

/-- States reachable when every launch notification respects `LaunchOk`. -/
inductive ReachL (reg : Option String → Option String) : Sys → Prop where
  | init : ReachL reg initSys
  | step (s : Sys) (e : Event) : ReachL reg s → LaunchOk s e →
      ReachL reg (stepEv reg s e).1

/-- A concrete bundle registry used in witness scenarios: it resolves only
the service name `"s"`. -/
def regW : Option String → Option String :=
  fun s => if s == some "s" then some "S" else none

/-- A concrete reachable scenario: a launch notification for activity
`"a"` followed by the opening of its normal window (xid 1). -/
def sysW : Sys :=
  (stepEv regW
    (stepEv regW initSys (.launch (some "a") (some "s"))).1
    (.winOpened ⟨1, WType.normal, none, some "a", none⟩)).1

/-- The scenario `sysW` extended by opening a second normal window
(xid 2) carrying activity id `"b"`. -/
def sysW2 : Sys :=
  (stepEv regW sysW (.winOpened ⟨2, WType.normal, none, some "b", none⟩)).1

/-! Basic lemmas about the operations. -/

theorem set_pending_activity_fst (m : HomeModel) (h : Option Nat) :
    (set_pending_activity m h).1 = { m with pending := h } := by
  unfold set_pending_activity
  split
  next heq =>
    have hp : m.pending = h := by simpa using heq
    cases m
    simp_all
  next => rfl

theorem set_active_activity_fst (m : HomeModel) (h : Option Nat) :
    (set_active_activity m h).1 = { m with active := h } := by
  unfold set_active_activity
  split
  next heq =>
    have hp : m.active = h := by simpa using heq
    cases m
    simp_all
  next => rfl

theorem get_activity_by_xid_congr (m m' : HomeModel) (xid : Nat)
    (h : m.activities = m'.activities) :
    get_activity_by_xid m xid = get_activity_by_xid m' xid := by
  unfold get_activity_by_xid
  rw [h]

theorem scanPending_congr (scr : Screen) (m m' : HomeModel)
    (h : m.activities = m'.activities) :
    scanPending scr m = scanPending scr m' := by
  unfold scanPending get_activity_by_xid
  rw [h]

/-- Rewrites `remove_activity` in closed form: the resulting state. -/
theorem remove_activity_fst (scr : Screen) (m : HomeModel) (oid : Nat) :
    (remove_activity scr m oid).1 =
      { activities := eraseOid m.activities oid,
        active := if m.active == some oid then none else m.active,
        pending := if m.pending == some oid
                   then (scanPending scr m).map HomeActivity.oid
                   else m.pending,
        nextOid := m.nextOid } := by
  obtain ⟨acts, act, pend, nxt⟩ := m
  unfold remove_activity
  by_cases h1 : (act == some oid) = true
  · have hcg : scanPending scr ⟨acts, none, pend, nxt⟩ =
        scanPending scr ⟨acts, act, pend, nxt⟩ := scanPending_congr _ _ _ rfl
    by_cases h2 : (pend == some oid) = true
    · cases hsc : scanPending scr ⟨acts, act, pend, nxt⟩ with
      | some a =>
        simp [h1, h2, set_active_activity_fst, set_pending_activity_fst,
          hcg, hsc]
      | none =>
        simp [h1, h2, set_active_activity_fst, set_pending_activity_fst,
          hcg, hsc]
    · simp [h1, h2, set_active_activity_fst, set_pending_activity_fst]
  · by_cases h2 : (pend == some oid) = true
    · cases hsc : scanPending scr ⟨acts, act, pend, nxt⟩ with
      | some a =>
        simp [h1, h2, set_pending_activity_fst, hsc]
      | none =>
        simp [h1, h2, set_pending_activity_fst, hsc]
    · simp [h1, h2]

theorem eraseOid_sublist (rs : List HomeActivity) (o : Nat) :
    List.Sublist (eraseOid rs o) rs := by
  induction rs with
  | nil => simp [eraseOid]
  | cons r rs ih =>
    unfold eraseOid
    split
    · exact List.sublist_cons_self r rs
    · exact List.Sublist.cons₂ r ih

theorem mem_of_mem_eraseOid {rs : List HomeActivity} {o : Nat}
    {r : HomeActivity} (h : r ∈ eraseOid rs o) : r ∈ rs :=
  (eraseOid_sublist rs o).mem h

/-- With distinct identity tags, every record surviving the erase has a
different tag from the erased one. -/
theorem eraseOid_oid_ne {rs : List HomeActivity} {o : Nat}
    (hnd : (rs.map HomeActivity.oid).Nodup) :
    ∀ r ∈ eraseOid rs o, r.oid ≠ o := by
  induction rs with
  | nil => simp [eraseOid]
  | cons r rs ih =>
    simp only [List.map_cons, List.nodup_cons] at hnd
    unfold eraseOid
    split
    next heq =>
      have ho : r.oid = o := by simpa using heq
      intro r' hr' hro
      exact hnd.1 (ho ▸ hro ▸ List.mem_map_of_mem HomeActivity.oid hr')
    next heq =>
      intro r' hr'
      rcases List.mem_cons.1 hr' with rfl | hr'
      · simpa using heq
      · exact ih hnd.2 r' hr'

/-- Records not carrying the erased tag survive the erase. -/
theorem mem_eraseOid_of_mem {rs : List HomeActivity} {o : Nat}
    {r : HomeActivity} (hr : r ∈ rs) (hne : r.oid ≠ o) :
    r ∈ eraseOid rs o := by
  induction rs with
  | nil => simp at hr
  | cons r' rs ih =>
    rcases List.mem_cons.1 hr with rfl | hr
    · have hb : (r.oid == o) = false := by simpa using hne
      simp [eraseOid, hb]
    · unfold eraseOid
      split
      · exact hr
      · exact List.mem_cons_of_mem _ (ih hr)

theorem get_activity_by_xid_some {m : HomeModel} {xid : Nat}
    {a : HomeActivity} (h : get_activity_by_xid m xid = some a) :
    a ∈ m.activities ∧ a.window = some xid := by
  unfold get_activity_by_xid at h
  refine ⟨List.mem_of_find?_eq_some h, ?_⟩
  simpa using List.find?_some h

theorem get_activity_by_xid_none {m : HomeModel} {xid : Nat}
    (h : get_activity_by_xid m xid = none) :
    ∀ r ∈ m.activities, r.window ≠ some xid := by
  unfold get_activity_by_xid at h
  intro r hr
  have := List.find?_eq_none.1 h r hr
  simpa using this

theorem get_activity_by_id_some {m : HomeModel} {aid : Option String}
    {a : HomeActivity} (h : get_activity_by_id m aid = some a) :
    a ∈ m.activities ∧ a.activity_id = aid := by
  unfold get_activity_by_id at h
  refine ⟨List.mem_of_find?_eq_some h, ?_⟩
  simpa using List.find?_some h

theorem get_activity_by_id_none {m : HomeModel} {aid : Option String}
    (h : get_activity_by_id m aid = none) :
    ∀ r ∈ m.activities, r.activity_id ≠ aid := by
  unfold get_activity_by_id at h
  intro r hr
  have := List.find?_eq_none.1 h r hr
  simpa using this

theorem head?_filterMap_some {α β : Type} {f : α → Option β} {l : List α}
    {b : β} (h : (l.filterMap f).head? = some b) :
    ∃ x ∈ l, f x = some b := by
  induction l with
  | nil => simp at h
  | cons x l ih =>
    rw [List.filterMap_cons] at h
    cases hx : f x with
    | none =>
      rw [hx] at h
      rcases ih h with ⟨y, hy, hfy⟩
      exact ⟨y, List.mem_cons_of_mem _ hy, hfy⟩
    | some b' =>
      rw [hx] at h
      simp only [List.head?_cons, Option.some.injEq] at h
      exact ⟨x, List.mem_cons_self x l, h ▸ hx⟩

/-- A successful replacement scan yields a tracked record whose window is
on the screen. -/
theorem scanPending_some {scr : Screen} {m : HomeModel} {a : HomeActivity}
    (h : scanPending scr m = some a) :
    a ∈ m.activities ∧ ∃ w ∈ scr.stacked, a.window = some w.xid := by
  unfold scanPending at h
  rcases head?_filterMap_some h with ⟨w, hw, hfw⟩
  rcases get_activity_by_xid_some hfw with ⟨ha, hwin⟩
  exact ⟨ha, w, List.mem_reverse.1 hw, hwin⟩

/-- A failed replacement scan means no tracked record has any window on
the screen. -/
theorem scanPending_none {scr : Screen} {m : HomeModel}
    (h : scanPending scr m = none) :
    ∀ w ∈ scr.stacked, ∀ r ∈ m.activities, r.window ≠ some w.xid := by
  unfold scanPending at h
  rw [List.head?_eq_none_iff, List.filterMap_eq_nil_iff] at h
  intro w hw r hr
  have := get_activity_by_xid_none (h w (List.mem_reverse.2 hw)) r hr
  exact this

/-- Whenever some tracked record has a window on the screen, the
replacement scan finds a record. -/
theorem scanPending_isSome {scr : Screen} {m : HomeModel} {r : HomeActivity}
    {x : Nat} (hr : r ∈ m.activities) (hw : r.window = some x)
    (hx : x ∈ stackXids scr) : (scanPending scr m).isSome = true := by
  cases hsc : scanPending scr m with
  | some a => rfl
  | none =>
    exfalso
    rcases List.mem_map.1 hx with ⟨w, hwmem, hwx⟩
    exact scanPending_none hsc w hwmem r hr (hwx ▸ hw)

theorem setRecord_map_oid (m : HomeModel) (o : Nat)
    (f : HomeActivity → HomeActivity) (hf : ∀ r, (f r).oid = r.oid) :
    (setRecord m o f).activities.map HomeActivity.oid =
      m.activities.map HomeActivity.oid := by
  unfold setRecord
  simp only [List.map_map]
  refine List.map_congr_left ?_
  intro r _
  by_cases h : r.oid = o <;> simp [h, hf]

theorem setRecord_map_aid (m : HomeModel) (o : Nat)
    (f : HomeActivity → HomeActivity)
    (hf : ∀ r, (f r).activity_id = r.activity_id) :
    (setRecord m o f).activities.map HomeActivity.activity_id =
      m.activities.map HomeActivity.activity_id := by
  unfold setRecord
  simp only [List.map_map]
  refine List.map_congr_left ?_
  intro r _
  by_cases h : r.oid = o <;> simp [h, hf]

theorem mem_setRecord {m : HomeModel} {o : Nat}
    {f : HomeActivity → HomeActivity} {r' : HomeActivity}
    (h : r' ∈ (setRecord m o f).activities) :
    ∃ r ∈ m.activities, r' = if (r.oid == o) = true then f r else r := by
  unfold setRecord at h
  rcases List.mem_map.1 h with ⟨r, hr, hrr⟩
  refine ⟨r, hr, ?_⟩
  split <;> simp_all

theorem window_opened_cb_nonnormal (reg : Option String → Option String)
    (m : HomeModel) (w : Window) (h : ¬ w.wtype = WType.normal) :
    window_opened_cb reg m w = (m, []) := by
  unfold window_opened_cb
  simp [h]

/-- Closed form of `_window_opened_cb` when an existing record is reused. -/
theorem window_opened_cb_reuse (reg : Option String → Option String)
    (m : HomeModel) (w : Window) (r : HomeActivity)
    (hn : w.wtype = WType.normal) (ht : truthy w.activity_id = true)
    (hr : get_activity_by_id m w.activity_id = some r) :
    window_opened_cb reg m w =
      if m.pending.isNone then
        ({ attachWindow m r.oid w.xid with pending := some r.oid },
         [(Sig.activityStarted r.oid, attachWindow m r.oid w.xid),
          (Sig.pendingActivityChanged (some r.oid),
           { attachWindow m r.oid w.xid with pending := some r.oid })])
      else
        (attachWindow m r.oid w.xid,
         [(Sig.activityStarted r.oid, attachWindow m r.oid w.xid)]) := by
  unfold window_opened_cb
  cases hp : m.pending with
  | none => simp [hn, ht, hr, attachWindow, set_pending_activity, setRecord, hp]
  | some p => simp [hn, ht, hr, attachWindow, setRecord, hp]

/-- Closed form of `_window_opened_cb` when a fresh record is created. -/
theorem window_opened_cb_create (reg : Option String → Option String)
    (m : HomeModel) (w : Window)
    (hn : w.wtype = WType.normal)
    (hnone : (if truthy w.activity_id then get_activity_by_id m w.activity_id
              else none) = none) :
    window_opened_cb reg m w =
      (let m1 : HomeModel :=
        { m with activities := m.activities ++ [openedRecord reg m w],
                 nextOid := m.nextOid + 1 }
       let m2 := attachWindow m1 m.nextOid w.xid
       if m.pending.isNone then
         ({ m2 with pending := some m.nextOid },
          [(Sig.activityAdded m.nextOid, m1),
           (Sig.activityStarted m.nextOid, m2),
           (Sig.pendingActivityChanged (some m.nextOid),
            { m2 with pending := some m.nextOid })])
       else
         (m2, [(Sig.activityAdded m.nextOid, m1),
               (Sig.activityStarted m.nextOid, m2)])) := by
  unfold window_opened_cb
  cases hp : m.pending with
  | none =>
    simp [hn, hnone, openedRecord, attachWindow, add_activity,
      set_pending_activity, setRecord, hp]
  | some p =>
    simp [hn, hnone, openedRecord, attachWindow, add_activity, setRecord, hp]

/-- Removal via `_remove_activity` preserves the invariant.  The membership of the
removed record's window in the stack is not assumed: only the other
records' windows must be on the screen. -/
theorem minv_remove_activity (scr : Screen) (m : HomeModel) (oid : Nat)
    (hstack : (scr.stacked.map Window.xid).Nodup)
    (hoids : (m.activities.map HomeActivity.oid).Nodup)
    (hlt : ∀ r ∈ m.activities, r.oid < m.nextOid)
    (hwin : ∀ r ∈ m.activities, r.oid ≠ oid → ∀ x, r.window = some x →
      ∃ w ∈ scr.stacked, w.xid = x ∧ w.wtype = WType.normal)
    (huniq : ∀ r₁ ∈ m.activities, ∀ r₂ ∈ m.activities, ∀ x,
      r₁.window = some x → r₂.window = some x → r₁.oid = r₂.oid)
    (hplt : ∀ o, m.pending = some o → o < m.nextOid)
    (hpnone : m.pending = none → ∀ r ∈ m.activities, r.window = none)
    (hpwin : ∀ o, m.pending = some o → ∀ r ∈ m.activities, r.oid = o →
      r.window.isSome = true) :
    MInv scr (remove_activity scr m oid).1 := by
  rw [remove_activity_fst]
  have hsub : ∀ r ∈ eraseOid m.activities oid, r ∈ m.activities :=
    fun r hr => mem_of_mem_eraseOid hr
  have hne : ∀ r ∈ eraseOid m.activities oid, r.oid ≠ oid :=
    eraseOid_oid_ne hoids
  constructor
  case stackNodup => exact hstack
  case oidsNodup =>
    exact hoids.sublist ((eraseOid_sublist m.activities oid).map _)
  case oidsLt =>
    exact fun r hr => hlt r (hsub r hr)
  case winInStack =>
    exact fun r hr x hx => hwin r (hsub r hr) (hne r hr) x hx
  case winUnique =>
    exact fun r₁ h₁ r₂ h₂ x hx₁ hx₂ =>
      huniq r₁ (hsub r₁ h₁) r₂ (hsub r₂ h₂) x hx₁ hx₂
  case pendLt =>
    intro o ho
    have ho' : (if m.pending == some oid
        then (scanPending scr m).map HomeActivity.oid else m.pending)
        = some o := ho
    by_cases hpo : (m.pending == some oid) = true
    · rw [if_pos hpo] at ho'
      cases hsc : scanPending scr m with
      | none => rw [hsc] at ho'; simp at ho'
      | some a =>
        rw [hsc] at ho'
        simp only [Option.map_some', Option.some.injEq] at ho'
        exact ho' ▸ hlt a (scanPending_some hsc).1
    · rw [if_neg hpo] at ho'
      exact hplt o ho'
  case pendNone =>
    intro hp r hr
    have hp' : (if m.pending == some oid
        then (scanPending scr m).map HomeActivity.oid else m.pending)
        = none := hp
    by_cases hpo : (m.pending == some oid) = true
    · rw [if_pos hpo] at hp'
      cases hsc : scanPending scr m with
      | some a => rw [hsc] at hp'; simp at hp'
      | none =>
        by_contra hwr
        cases hx : r.window with
        | none => exact hwr hx
        | some x =>
          rcases hwin r (hsub r hr) (hne r hr) x hx with ⟨w, hwmem, hwx, _⟩
          exact scanPending_none hsc w hwmem r (hsub r hr) (hwx ▸ hx)
    · rw [if_neg hpo] at hp'
      exact hpnone hp' r (hsub r hr)
  case pendWin =>
    intro o ho r hr hro
    have ho' : (if m.pending == some oid
        then (scanPending scr m).map HomeActivity.oid else m.pending)
        = some o := ho
    by_cases hpo : (m.pending == some oid) = true
    · rw [if_pos hpo] at ho'
      cases hsc : scanPending scr m with
      | none => rw [hsc] at ho'; simp at ho'
      | some a =>
        rw [hsc] at ho'
        simp only [Option.map_some', Option.some.injEq] at ho'
        rcases scanPending_some hsc with ⟨ha, w, hwmem, hwx⟩
        have hra : r = a :=
          List.inj_on_of_nodup_map hoids (hsub r hr) ha (by rw [hro, ho'])
        rw [hra, hwx]
        rfl
    · rw [if_neg hpo] at ho'
      exact hpwin o ho' r (hsub r hr) hro

theorem nodup_concat_of {α : Type} {l : List α} {a : α} (h : l.Nodup)
    (ha : a ∉ l) : (l ++ [a]).Nodup := by
  simp [List.nodup_append, h, ha]

/-- Running `_window_closed_cb` after its window left the screen preserves the
invariant. -/
theorem minv_window_closed_cb (scr0 : Screen) (m : HomeModel) (w : Window)
    (hm : MInv scr0 m) (hwmem : w ∈ scr0.stacked) :
    MInv { scr0 with stacked := scr0.stacked.filter (fun v => v.xid != w.xid) }
      (window_closed_cb
        { scr0 with stacked := scr0.stacked.filter (fun v => v.xid != w.xid) }
        m w).1 := by
  obtain ⟨hstack, hoids, hlt, hwin, huniq, hplt, hpnone, hpwin⟩ := hm
  have hstack' :
      ((scr0.stacked.filter (fun v => v.xid != w.xid)).map Window.xid).Nodup :=
    hstack.sublist ((List.filter_sublist _).map _)
  have hmemf : ∀ v ∈ scr0.stacked, v.xid ≠ w.xid →
      v ∈ scr0.stacked.filter (fun v => v.xid != w.xid) := by
    intro v hv hne
    refine List.mem_filter.2 ⟨hv, ?_⟩
    simpa using hne
  unfold window_closed_cb
  by_cases hn : (w.wtype == WType.normal) = true
  · rw [if_pos hn]
    unfold remove_activity_by_xid
    cases hg : get_activity_by_xid m w.xid with
    | none =>
      have hnwin := get_activity_by_xid_none hg
      refine ⟨hstack', hoids, hlt, ?_, huniq, hplt, hpnone, hpwin⟩
      intro r hr x hx
      rcases hwin r hr x hx with ⟨w1, hw1, hw1x, hw1n⟩
      refine ⟨w1, hmemf w1 hw1 ?_, hw1x, hw1n⟩
      intro heq
      exact hnwin r hr (by rw [hx, ← hw1x, heq])
    | some r0 =>
      rcases get_activity_by_xid_some hg with ⟨hr0mem, hr0win⟩
      apply minv_remove_activity _ _ _ hstack' hoids hlt _ huniq hplt
        hpnone hpwin
      intro r hr hne x hx
      rcases hwin r hr x hx with ⟨w1, hw1, hw1x, hw1n⟩
      refine ⟨w1, hmemf w1 hw1 ?_, hw1x, hw1n⟩
      intro hxeq
      -- r and r0 would share the closed window
      exact hne (huniq r hr r0 hr0mem w.xid (by rw [hx, ← hw1x, hxeq]) hr0win)
  · rw [if_neg hn]
    refine ⟨hstack', hoids, hlt, ?_, huniq, hplt, hpnone, hpwin⟩
    intro r hr x hx
    rcases hwin r hr x hx with ⟨w1, hw1, hw1x, hw1n⟩
    refine ⟨w1, hmemf w1 hw1 ?_, hw1x, hw1n⟩
    intro hxeq
    -- w1 would be the closed window itself, but w is not normal
    have hww : w1 = w := List.inj_on_of_nodup_map hstack hw1 hwmem hxeq
    rw [hww] at hw1n
    exact hn (by rw [hw1n]; rfl)

/-- Attaching the freshly mapped window to an existing record (the reuse
path of `_window_opened_cb`) preserves the invariant, for either resulting
pending selector (the record just attached, or the unchanged non-none
previous value). -/
theorem minv_attach (scr0 : Screen) (m : HomeModel) (w : Window) (o : Nat)
    (hn : w.wtype = WType.normal)
    (hfresh : w.xid ∉ scr0.stacked.map Window.xid)
    (hstack : (scr0.stacked.map Window.xid).Nodup)
    (hoids : (m.activities.map HomeActivity.oid).Nodup)
    (hlt : ∀ r ∈ m.activities, r.oid < m.nextOid)
    (hwin : ∀ r ∈ m.activities, ∀ x, r.window = some x →
      ∃ w1 ∈ scr0.stacked, w1.xid = x ∧ w1.wtype = WType.normal)
    (huniq : ∀ r₁ ∈ m.activities, ∀ r₂ ∈ m.activities, ∀ x,
      r₁.window = some x → r₂.window = some x → r₁.oid = r₂.oid)
    (hplt : ∀ o', m.pending = some o' → o' < m.nextOid)
    (hpwin : ∀ o', m.pending = some o' → ∀ r ∈ m.activities, r.oid = o' →
      r.window.isSome = true)
    (hoo : o < m.nextOid)
    (p : Option Nat)
    (hpcase : p = some o ∨ (p = m.pending ∧ m.pending.isSome = true)) :
    MInv { scr0 with stacked := scr0.stacked ++ [w] }
      { attachWindow m o w.xid with pending := p } := by
  have hstack' : ((scr0.stacked ++ [w]).map Window.xid).Nodup := by
    rw [List.map_append]
    exact nodup_concat_of hstack (by simpa using hfresh)
  have hmem : ∀ r' ∈ ({ attachWindow m o w.xid with pending := p } :
        HomeModel).activities,
      ∃ r0 ∈ m.activities, r' = if (r0.oid == o) = true
        then { r0 with window := some w.xid, launching := false } else r0 :=
    fun r' h => mem_setRecord h
  have hoideq : ({ attachWindow m o w.xid with pending := p } :
        HomeModel).activities.map HomeActivity.oid
      = m.activities.map HomeActivity.oid :=
    setRecord_map_oid m o _ (fun r => rfl)
  constructor
  case stackNodup => exact hstack'
  case oidsNodup => rw [hoideq]; exact hoids
  case oidsLt =>
    intro r' hr'
    rcases hmem r' hr' with ⟨r0, hr0, heq⟩
    by_cases hc : (r0.oid == o) = true
    · rw [if_pos hc] at heq; rw [heq]; exact hlt r0 hr0
    · rw [if_neg hc] at heq; rw [heq]; exact hlt r0 hr0
  case winInStack =>
    intro r' hr' x hx
    rcases hmem r' hr' with ⟨r0, hr0, heq⟩
    by_cases hc : (r0.oid == o) = true
    · rw [if_pos hc] at heq
      rw [heq] at hx
      have hxw : w.xid = x := by simpa using hx
      subst hxw
      exact ⟨w, List.mem_append_right _ (List.mem_singleton_self w), rfl, hn⟩
    · rw [if_neg hc] at heq
      rw [heq] at hx
      rcases hwin r0 hr0 x hx with ⟨w1, hw1, hw1x, hw1n⟩
      exact ⟨w1, List.mem_append_left _ hw1, hw1x, hw1n⟩
  case winUnique =>
    intro r1 h1 r2 h2 x hx1 hx2
    rcases hmem r1 h1 with ⟨a1, ha1, he1⟩
    rcases hmem r2 h2 with ⟨a2, ha2, he2⟩
    by_cases hc1 : (a1.oid == o) = true <;> by_cases hc2 : (a2.oid == o) = true
    · rw [if_pos hc1] at he1; rw [if_pos hc2] at he2
      rw [he1, he2]
      have e1 : a1.oid = o := by simpa using hc1
      have e2 : a2.oid = o := by simpa using hc2
      show a1.oid = a2.oid
      rw [e1, e2]
    · rw [if_pos hc1] at he1; rw [if_neg hc2] at he2
      rw [he1] at hx1; rw [he2] at hx2
      have hxw : w.xid = x := by simpa using hx1
      subst hxw
      rcases hwin a2 ha2 w.xid hx2 with ⟨w1, hw1, hw1x, _⟩
      exact absurd (hw1x ▸ List.mem_map_of_mem Window.xid hw1) hfresh
    · rw [if_neg hc1] at he1; rw [if_pos hc2] at he2
      rw [he1] at hx1; rw [he2] at hx2
      have hxw : w.xid = x := by simpa using hx2
      subst hxw
      rcases hwin a1 ha1 w.xid hx1 with ⟨w1, hw1, hw1x, _⟩
      exact absurd (hw1x ▸ List.mem_map_of_mem Window.xid hw1) hfresh
    · rw [if_neg hc1] at he1; rw [if_neg hc2] at he2
      rw [he1] at hx1; rw [he2] at hx2
      rw [he1, he2]
      exact huniq a1 ha1 a2 ha2 x hx1 hx2
  case pendLt =>
    intro o' ho'
    have hp : p = some o' := ho'
    rcases hpcase with rfl | ⟨rfl, _⟩
    · have := Option.some.inj hp
      rw [← this]; exact hoo
    · exact hplt o' hp
  case pendNone =>
    intro hpn
    have hp : p = none := hpn
    rcases hpcase with rfl | ⟨rfl, hs⟩
    · simp at hp
    · rw [hp] at hs; simp at hs
  case pendWin =>
    intro o' ho' r' hr' hro'
    have hp : p = some o' := ho'
    rcases hmem r' hr' with ⟨r0, hr0, heq⟩
    by_cases hc : (r0.oid == o) = true
    · rw [if_pos hc] at heq; rw [heq]; rfl
    · rw [if_neg hc] at heq
      rw [heq] at hro'
      rw [heq]
      have hro : r0.oid = o' := hro'
      rcases hpcase with rfl | ⟨rfl, _⟩
      · have ho : o = o' := Option.some.inj hp
        have : r0.oid = o := by rw [hro, ← ho]
        exact absurd this (by simpa using hc)
      · exact hpwin o' hp r0 hr0 hro
/-- Creating a fresh record for the newly mapped window (the create path
of `_window_opened_cb`) preserves the invariant, for either resulting
pending selector. -/
theorem minv_create (reg : Option String → Option String) (scr0 : Screen)
    (m : HomeModel) (w : Window)
    (hn : w.wtype = WType.normal)
    (hfresh : w.xid ∉ scr0.stacked.map Window.xid)
    (hstack : (scr0.stacked.map Window.xid).Nodup)
    (hoids : (m.activities.map HomeActivity.oid).Nodup)
    (hlt : ∀ r ∈ m.activities, r.oid < m.nextOid)
    (hwin : ∀ r ∈ m.activities, ∀ x, r.window = some x →
      ∃ w1 ∈ scr0.stacked, w1.xid = x ∧ w1.wtype = WType.normal)
    (huniq : ∀ r₁ ∈ m.activities, ∀ r₂ ∈ m.activities, ∀ x,
      r₁.window = some x → r₂.window = some x → r₁.oid = r₂.oid)
    (hplt : ∀ o', m.pending = some o' → o' < m.nextOid)
    (hpwin : ∀ o', m.pending = some o' → ∀ r ∈ m.activities, r.oid = o' →
      r.window.isSome = true)
    (p : Option Nat)
    (hpcase : p = some m.nextOid ∨ (p = m.pending ∧ m.pending.isSome = true)) :
    MInv { scr0 with stacked := scr0.stacked ++ [w] }
      { attachWindow
          { m with activities := m.activities ++ [openedRecord reg m w],
                   nextOid := m.nextOid + 1 }
          m.nextOid w.xid
        with pending := p } := by
  have hacts : (attachWindow
      { m with activities := m.activities ++ [openedRecord reg m w],
               nextOid := m.nextOid + 1 } m.nextOid w.xid).activities
      = m.activities ++
        [{ oid := m.nextOid, activity_id := w.activity_id,
           activity_info := if truthy w.bundle_id then reg w.bundle_id else none,
           window := some w.xid, launching := false, service := false }] := by
    show (m.activities ++ [openedRecord reg m w]).map
        (fun r => if r.oid == m.nextOid
          then { r with window := some w.xid, launching := false } else r) = _
    rw [List.map_append]
    congr 1
    · have hid : ∀ r ∈ m.activities,
          (if r.oid == m.nextOid
           then { r with window := some w.xid, launching := false } else r)
          = id r := by
        intro r hr
        simp [Nat.ne_of_lt (hlt r hr)]
      rw [List.map_congr_left hid, List.map_id]
    · simp [openedRecord]
  set newR : HomeActivity :=
    { oid := m.nextOid, activity_id := w.activity_id,
      activity_info := if truthy w.bundle_id then reg w.bundle_id else none,
      window := some w.xid, launching := false, service := false } with hnewR
  have hstack' : ((scr0.stacked ++ [w]).map Window.xid).Nodup := by
    rw [List.map_append]
    exact nodup_concat_of hstack (by simpa using hfresh)
  have hmem : ∀ r' ∈ ({ attachWindow
        { m with activities := m.activities ++ [openedRecord reg m w],
                 nextOid := m.nextOid + 1 } m.nextOid w.xid
        with pending := p } : HomeModel).activities,
      r' ∈ m.activities ∨ r' = newR := by
    intro r' hr'
    have hr2 : r' ∈ m.activities ++ [newR] := by
      rw [← hacts]; exact hr'
    rcases List.mem_append.1 hr2 with h | h
    · exact Or.inl h
    · exact Or.inr (List.mem_singleton.1 h)
  constructor
  case stackNodup => exact hstack'
  case oidsNodup =>
    show ((attachWindow _ _ _).activities.map HomeActivity.oid).Nodup
    rw [hacts, List.map_append]
    refine nodup_concat_of hoids ?_
    intro hmm
    rcases List.mem_map.1 hmm with ⟨r, hr, hro⟩
    exact absurd hro (Nat.ne_of_lt (hlt r hr))
  case oidsLt =>
    intro r' hr'
    show r'.oid < m.nextOid + 1
    rcases hmem r' hr' with h | rfl
    · exact Nat.lt_succ_of_lt (hlt r' h)
    · exact Nat.lt_succ_self _
  case winInStack =>
    intro r' hr' x hx
    rcases hmem r' hr' with h | rfl
    · rcases hwin r' h x hx with ⟨w1, hw1, hw1x, hw1n⟩
      exact ⟨w1, List.mem_append_left _ hw1, hw1x, hw1n⟩
    · have hxw : w.xid = x := by simpa [hnewR] using hx
      subst hxw
      exact ⟨w, List.mem_append_right _ (List.mem_singleton_self w), rfl, hn⟩
  case winUnique =>
    intro r1 h1 r2 h2 x hx1 hx2
    rcases hmem r1 h1 with ha1 | rfl <;> rcases hmem r2 h2 with ha2 | rfl
    · exact huniq r1 ha1 r2 ha2 x hx1 hx2
    · have hxw : w.xid = x := by simpa [hnewR] using hx2
      subst hxw
      rcases hwin r1 ha1 w.xid hx1 with ⟨w1, hw1, hw1x, _⟩
      exact absurd (hw1x ▸ List.mem_map_of_mem Window.xid hw1) hfresh
    · have hxw : w.xid = x := by simpa [hnewR] using hx1
      subst hxw
      rcases hwin r2 ha2 w.xid hx2 with ⟨w1, hw1, hw1x, _⟩
      exact absurd (hw1x ▸ List.mem_map_of_mem Window.xid hw1) hfresh
    · rfl
  case pendLt =>
    intro o' ho'
    have hp : p = some o' := ho'
    show o' < m.nextOid + 1
    rcases hpcase with rfl | ⟨rfl, _⟩
    · have := Option.some.inj hp
      rw [← this]; exact Nat.lt_succ_self _
    · exact Nat.lt_succ_of_lt (hplt o' hp)
  case pendNone =>
    intro hpn
    have hp : p = none := hpn
    rcases hpcase with rfl | ⟨rfl, hs⟩
    · simp at hp
    · rw [hp] at hs; simp at hs
  case pendWin =>
    intro o' ho' r' hr' hro'
    have hp : p = some o' := ho'
    rcases hmem r' hr' with h | rfl
    · rcases hpcase with rfl | ⟨rfl, _⟩
      · have ho : m.nextOid = o' := Option.some.inj hp
        exact absurd (hro'.trans ho.symm) (Nat.ne_of_lt (hlt r' h))
      · exact hpwin o' hp r' h hro'
    · rfl
/-- Running `_window_opened_cb` for a freshly mapped window preserves the
invariant. -/
theorem minv_window_opened_cb (reg : Option String → Option String)
    (scr0 : Screen) (m : HomeModel) (w : Window)
    (hm : MInv scr0 m) (hfresh : w.xid ∉ scr0.stacked.map Window.xid) :
    MInv { scr0 with stacked := scr0.stacked ++ [w] }
      (window_opened_cb reg m w).1 := by
  obtain ⟨hstack, hoids, hlt, hwin, huniq, hplt, hpnone, hpwin⟩ := hm
  by_cases hn : w.wtype = WType.normal
  case neg =>
    rw [window_opened_cb_nonnormal reg m w hn]
    have hstack' : ((scr0.stacked ++ [w]).map Window.xid).Nodup := by
      rw [List.map_append]
      exact nodup_concat_of hstack (by simpa using hfresh)
    refine ⟨hstack', hoids, hlt, ?_, huniq, hplt, hpnone, hpwin⟩
    intro r hr x hx
    rcases hwin r hr x hx with ⟨w1, hw1, hw1x, hw1n⟩
    exact ⟨w1, List.mem_append_left _ hw1, hw1x, hw1n⟩
  case pos =>
    cases hexi : (if truthy w.activity_id
        then get_activity_by_id m w.activity_id else none) with
    | some r =>
      have ht : truthy w.activity_id = true := by
        by_contra hf
        rw [if_neg hf] at hexi
        exact Option.noConfusion hexi
      have hrid : get_activity_by_id m w.activity_id = some r := by
        rw [if_pos ht] at hexi; exact hexi
      have hrmem := (get_activity_by_id_some hrid).1
      rw [window_opened_cb_reuse reg m w r hn ht hrid]
      by_cases hps : m.pending = none
      · have hif : m.pending.isNone = true := by rw [hps]; rfl
        simp only [hif, if_true]
        exact minv_attach scr0 m w r.oid hn hfresh hstack hoids hlt hwin
          huniq hplt hpwin (hlt r hrmem) (some r.oid) (Or.inl rfl)
      · have hsome : m.pending.isSome = true := Option.ne_none_iff_isSome.mp hps
        have hif : m.pending.isNone = false :=
          (Option.isNone_eq_false_iff _).mpr hsome
        simp only [hif, Bool.false_eq_true, if_false]
        exact minv_attach scr0 m w r.oid hn hfresh hstack hoids hlt hwin
          huniq hplt hpwin (hlt r hrmem) m.pending (Or.inr ⟨rfl, hsome⟩)
    | none =>
      rw [window_opened_cb_create reg m w hn hexi]
      by_cases hps : m.pending = none
      · have hif : m.pending.isNone = true := by rw [hps]; rfl
        simp only [hif, if_true]
        exact minv_create reg scr0 m w hn hfresh hstack hoids hlt hwin
          huniq hplt hpwin (some m.nextOid) (Or.inl rfl)
      · have hsome : m.pending.isSome = true := Option.ne_none_iff_isSome.mp hps
        have hif : m.pending.isNone = false :=
          (Option.isNone_eq_false_iff _).mpr hsome
        simp only [hif, Bool.false_eq_true, if_false]
        exact minv_create reg scr0 m w hn hfresh hstack hoids hlt hwin
          huniq hplt hpwin m.pending (Or.inr ⟨rfl, hsome⟩)

/-- Running `_active_window_changed_cb` preserves the invariant on any screen with
the same stack. -/
theorem minv_active_window_changed (scr0 scr1 : Screen) (m : HomeModel)
    (hm : MInv scr0 m) (hsame : scr1.stacked = scr0.stacked) :
    MInv scr1 (active_window_changed_cb scr1 m).1 := by
  obtain ⟨hstack, hoids, hlt, hwin, huniq, hplt, hpnone, hpwin⟩ := hm
  have hwin1 : ∀ r ∈ m.activities, ∀ x, r.window = some x →
      ∃ w1 ∈ scr1.stacked, w1.xid = x ∧ w1.wtype = WType.normal := by
    intro r hr x hx
    rw [hsame]
    exact hwin r hr x hx
  have hbase : MInv scr1 m :=
    ⟨by rw [hsame]; exact hstack, hoids, hlt, hwin1, huniq, hplt, hpnone, hpwin⟩
  cases hact : scr1.active with
  | none =>
    simp only [active_window_changed_cb, hact]
    exact hbase
  | some x =>
    cases hf : scr1.stacked.find? (fun v => v.xid == x) with
    | none =>
      simp only [active_window_changed_cb, hact, hf]
      exact hbase
    | some w0 =>
      cases hga : get_activity_by_xid m
          (if (w0.wtype != WType.dialog) = true
           then resolveTransient scr1 scr1.stacked.length w0 else w0).xid with
      | none =>
        simp only [active_window_changed_cb, hact, hf, hga]
        exact hbase
      | some a =>
        rcases get_activity_by_xid_some hga with ⟨hamem, hawin⟩
        simp only [active_window_changed_cb, hact, hf, hga,
          set_pending_activity_fst, set_active_activity_fst]
        refine ⟨by rw [hsame]; exact hstack, hoids, hlt, hwin1, huniq, ?_, ?_, ?_⟩
        · intro o ho
          have ho' : some a.oid = some o := ho
          rw [← Option.some.inj ho']
          exact hlt a hamem
        · intro hpn
          exact absurd hpn (by simp)
        · intro o ho r hr hro
          have ho' : some a.oid = some o := ho
          have hra : r = a :=
            List.inj_on_of_nodup_map hoids hr hamem
              (by rw [hro, ← Option.some.inj ho'])
          rw [hra, hawin]
          rfl

/-- Registering a launch record (fresh tag, no window) preserves the
invariant. -/
theorem minv_launch_record (scr0 : Screen) (m : HomeModel)
    (rec : HomeActivity) (hm : MInv scr0 m)
    (hro : rec.oid = m.nextOid) (hrw : rec.window = none) :
    MInv scr0
      { m with activities := m.activities ++ [rec],
               nextOid := m.nextOid + 1 } := by
  obtain ⟨hstack, hoids, hlt, hwin, huniq, hplt, hpnone, hpwin⟩ := hm
  have hmem : ∀ r' ∈ m.activities ++ [rec], r' ∈ m.activities ∨ r' = rec := by
    intro r' hr'
    rcases List.mem_append.1 hr' with h | h
    · exact Or.inl h
    · exact Or.inr (List.mem_singleton.1 h)
  constructor
  case stackNodup => exact hstack
  case oidsNodup =>
    show ((m.activities ++ [rec]).map HomeActivity.oid).Nodup
    rw [List.map_append]
    refine nodup_concat_of hoids ?_
    intro hmm
    rcases List.mem_map.1 hmm with ⟨r, hr, hrr⟩
    exact absurd (hrr.trans hro) (Nat.ne_of_lt (hlt r hr))
  case oidsLt =>
    intro r' hr'
    show r'.oid < m.nextOid + 1
    rcases hmem r' hr' with h | rfl
    · exact Nat.lt_succ_of_lt (hlt r' h)
    · rw [hro]; exact Nat.lt_succ_self _
  case winInStack =>
    intro r' hr' x hx
    rcases hmem r' hr' with h | rfl
    · exact hwin r' h x hx
    · rw [hrw] at hx; exact Option.noConfusion hx
  case winUnique =>
    intro r1 h1 r2 h2 x hx1 hx2
    rcases hmem r1 h1 with ha1 | rfl
    · rcases hmem r2 h2 with ha2 | rfl
      · exact huniq r1 ha1 r2 ha2 x hx1 hx2
      · rw [hrw] at hx2; exact Option.noConfusion hx2
    · rw [hrw] at hx1; exact Option.noConfusion hx1
  case pendLt =>
    intro o ho
    exact Nat.lt_succ_of_lt (hplt o ho)
  case pendNone =>
    intro hpn r' hr'
    rcases hmem r' hr' with h | rfl
    · exact hpnone hpn r' h
    · exact hrw
  case pendWin =>
    intro o ho r' hr' hro'
    rcases hmem r' hr' with h | rfl
    · exact hpwin o ho r' h hro'
    · exact absurd (hplt o ho) (by rw [← hro', hro]; exact Nat.lt_irrefl _)

/-- Every event delivery preserves the invariant. -/
theorem inv_step (reg : Option String → Option String) (s : Sys) (e : Event)
    (h : Inv s) : Inv (stepEv reg s e).1 := by
  obtain ⟨scr0, m⟩ := s
  cases e with
  | winOpened w =>
    by_cases hin : w.xid ∈ stackXids scr0
    · simpa [stepEv, hin] using h
    · have hres := minv_window_opened_cb reg scr0 m w h
        (by simpa [stackXids] using hin)
      simpa [stepEv, hin] using hres
  | winClosed x =>
    cases hf : scr0.stacked.find? (fun v => v.xid == x) with
    | none => simpa [stepEv, hf] using h
    | some w =>
      have hwmem := List.mem_of_find?_eq_some hf
      have hwx : w.xid = x := by simpa using List.find?_some hf
      have hres := minv_window_closed_cb scr0 m w h hwmem
      rw [hwx] at hres
      simpa [stepEv, hf] using hres
  | activeWinChanged x =>
    have hres := minv_active_window_changed scr0 { scr0 with active := x } m h rfl
    simpa [stepEv] using hres
  | raiseWin x =>
    cases hf : scr0.stacked.find? (fun v => v.xid == x) with
    | none => simpa [stepEv, hf] using h
    | some w =>
      obtain ⟨hstack, hoids, hlt, hwin, huniq, hplt, hpnone, hpwin⟩ := h
      have hwmem := List.mem_of_find?_eq_some hf
      have hwx : w.xid = x := by simpa using List.find?_some hf
      have hnof : x ∉ (scr0.stacked.filter (fun v => v.xid != x)).map Window.xid := by
        intro hmm
        rcases List.mem_map.1 hmm with ⟨v, hv, hvx⟩
        have := (List.mem_filter.1 hv).2
        rw [hvx] at this
        simp at this
      have hstack' : (((scr0.stacked.filter (fun v => v.xid != x)) ++ [w]).map
          Window.xid).Nodup := by
        rw [List.map_append]
        refine nodup_concat_of
          (hstack.sublist ((List.filter_sublist _).map _)) ?_
        rw [hwx]
        exact hnof
      have hwin' : ∀ r ∈ m.activities, ∀ y, r.window = some y →
          ∃ w1 ∈ (scr0.stacked.filter (fun v => v.xid != x)) ++ [w],
            w1.xid = y ∧ w1.wtype = WType.normal := by
        intro r hr y hy
        rcases hwin r hr y hy with ⟨w1, hw1, hw1y, hw1n⟩
        by_cases hyx : w1.xid = x
        · have hww : w1 = w :=
            List.inj_on_of_nodup_map hstack hw1 hwmem (by rw [hyx, hwx])
          exact ⟨w, List.mem_append_right _ (List.mem_singleton_self w),
            by rw [← hww, hw1y], by rw [← hww, hw1n]⟩
        · refine ⟨w1, List.mem_append_left _ (List.mem_filter.2 ⟨hw1, ?_⟩),
            hw1y, hw1n⟩
          simpa using hyx
      have hres : MInv { scr0 with
          stacked := scr0.stacked.filter (fun v => v.xid != x) ++ [w] } m :=
        ⟨hstack', hoids, hlt, hwin', huniq, hplt, hpnone, hpwin⟩
      simpa [stepEv, hf] using hres
  | launch aid sname =>
    cases hreg : reg sname with
    | none => simpa [stepEv, notify_activity_launch, hreg] using h
    | some info =>
      have hres := minv_launch_record scr0 m
        { oid := m.nextOid, activity_id := aid, activity_info := some info,
          window := none, launching := true, service := false } h rfl rfl
      simpa [stepEv, notify_activity_launch, hreg, add_activity] using hres
  | launchFailed aid =>
    cases hg : get_activity_by_id m aid with
    | none => simpa [stepEv, notify_activity_launch_failed, hg] using h
    | some r0 =>
      obtain ⟨hstack, hoids, hlt, hwin, huniq, hplt, hpnone, hpwin⟩ := h
      have hres := minv_remove_activity scr0 m r0.oid hstack hoids hlt
        (fun r hr _ x hx => hwin r hr x hx) huniq hplt hpnone hpwin
      simpa [stepEv, notify_activity_launch_failed, hg] using hres

/-- Every reachable combined state satisfies the invariant. -/
theorem reach_inv (reg : Option String → Option String) (s : Sys)
    (h : Reach reg s) : Inv s := by
  induction h with
  | init => exact ⟨by simp [initSys], by simp [initSys], by simp [initSys],
      by simp [initSys], by simp [initSys], by simp [initSys],
      by simp [initSys], by simp [initSys]⟩
  | step s e _ ih => exact inv_step reg s e ih
theorem truthy_ne {a b : Option String} (ha : truthy a = true)
    (hb : truthy b = false) : a ≠ b := by
  intro h
  rw [h, hb] at ha
  exact Bool.noConfusion ha

/-- Opening a window either leaves the list of activity ids
unchanged (reuse) or appends the window's id after failing to find it
(create). -/
theorem window_opened_cb_aids (reg : Option String → Option String)
    (m : HomeModel) (w : Window) :
    ((window_opened_cb reg m w).1.activities.map HomeActivity.activity_id
      = m.activities.map HomeActivity.activity_id)
    ∨ ((if truthy w.activity_id then get_activity_by_id m w.activity_id
        else none) = none
       ∧ (window_opened_cb reg m w).1.activities.map HomeActivity.activity_id
         = m.activities.map HomeActivity.activity_id ++ [w.activity_id]) := by
  by_cases hn : w.wtype = WType.normal
  case neg =>
    rw [window_opened_cb_nonnormal reg m w hn]
    exact Or.inl rfl
  case pos =>
    cases hexi : (if truthy w.activity_id
        then get_activity_by_id m w.activity_id else none) with
    | some r =>
      have ht : truthy w.activity_id = true := by
        by_contra hf
        rw [if_neg hf] at hexi
        exact Option.noConfusion hexi
      have hrid : get_activity_by_id m w.activity_id = some r := by
        rw [if_pos ht] at hexi; exact hexi
      left
      rw [window_opened_cb_reuse reg m w r hn ht hrid]
      by_cases hps : m.pending = none
      · have hif : m.pending.isNone = true := by rw [hps]; rfl
        simp only [hif, if_true]
        exact setRecord_map_aid m r.oid _ (fun r0 => rfl)
      · have hsome : m.pending.isSome = true := Option.ne_none_iff_isSome.mp hps
        have hif : m.pending.isNone = false :=
          (Option.isNone_eq_false_iff _).mpr hsome
        simp only [hif, Bool.false_eq_true, if_false]
        exact setRecord_map_aid m r.oid _ (fun r0 => rfl)
    | none =>
      right
      refine ⟨rfl, ?_⟩
      rw [window_opened_cb_create reg m w hn hexi]
      have hmid : ∀ p : Option Nat,
          ({ attachWindow
              { m with activities := m.activities ++ [openedRecord reg m w],
                       nextOid := m.nextOid + 1 } m.nextOid w.xid
             with pending := p } : HomeModel).activities.map
               HomeActivity.activity_id
          = m.activities.map HomeActivity.activity_id ++ [w.activity_id] := by
        intro p
        have h1 := setRecord_map_aid
          { m with activities := m.activities ++ [openedRecord reg m w],
                   nextOid := m.nextOid + 1 } m.nextOid
          (fun r0 => { r0 with window := some w.xid, launching := false })
          (fun r0 => rfl)
        refine h1.trans ?_
        show (m.activities ++ [openedRecord reg m w]).map
          HomeActivity.activity_id = _
        rw [List.map_append]
        rfl
      by_cases hps : m.pending = none
      · have hif : m.pending.isNone = true := by rw [hps]; rfl
        simp only [hif, if_true]
        exact hmid (some m.nextOid)
      · have hsome : m.pending.isSome = true := Option.ne_none_iff_isSome.mp hps
        have hif : m.pending.isNone = false :=
          (Option.isNone_eq_false_iff _).mpr hsome
        simp only [hif, Bool.false_eq_true, if_false]
        exact hmid m.pending

theorem active_window_changed_cb_activities (scr : Screen) (m : HomeModel) :
    (active_window_changed_cb scr m).1.activities = m.activities := by
  cases hact : scr.active with
  | none => simp [active_window_changed_cb, hact]
  | some x =>
    cases hf : scr.stacked.find? (fun v => v.xid == x) with
    | none => simp [active_window_changed_cb, hact, hf]
    | some w0 =>
      cases hga : get_activity_by_xid m
          (if (w0.wtype != WType.dialog) = true
           then resolveTransient scr scr.stacked.length w0 else w0).xid with
      | none =>
        simp only [active_window_changed_cb, hact, hf, hga]
      | some a =>
        simp only [active_window_changed_cb, hact, hf, hga,
          set_pending_activity_fst, set_active_activity_fst]

theorem aidsok_remove (scr : Screen) (m : HomeModel) (oid : Nat)
    (h : AidsOk m) : AidsOk (remove_activity scr m oid).1 := by
  unfold AidsOk at *
  have hacts : (remove_activity scr m oid).1.activities
      = eraseOid m.activities oid := by rw [remove_activity_fst]
  rw [hacts]
  exact List.Pairwise.sublist ((eraseOid_sublist m.activities oid).map _) h

theorem aidsok_append (m : HomeModel) (a : Option String)
    (h : AidsOk m)
    (hnew : truthy a = true → ∀ r ∈ m.activities, r.activity_id ≠ a)
    (rec : HomeActivity) (hra : rec.activity_id = a) :
    ((m.activities ++ [rec]).map HomeActivity.activity_id).Pairwise
      (fun a b => truthy a = true → a ≠ b) := by
  rw [List.map_append, List.pairwise_append]
  refine ⟨h, by simp, ?_⟩
  intro b hb c hc htb
  rcases List.mem_map.1 hb with ⟨r, hr, hrb⟩
  have hc' : c = a := by
    simp only [List.map_cons, List.map_nil, List.mem_singleton] at hc
    rw [hc, hra]
  rw [hc']
  by_cases hta : truthy a = true
  · intro hbc
    exact hnew hta r hr (by rw [hrb, hbc])
  · exact truthy_ne htb (by simpa using hta)

/-- Every event preserves distinctness of non-absent activity ids,
provided launch notifications respect `LaunchOk`. -/
theorem aidsok_step (reg : Option String → Option String) (s : Sys)
    (e : Event) (h : AidsOk s.hm) (hok : LaunchOk s e) :
    AidsOk (stepEv reg s e).1.hm := by
  obtain ⟨scr0, m⟩ := s
  cases e with
  | winOpened w =>
    by_cases hin : w.xid ∈ stackXids scr0
    · simpa [stepEv, hin] using h
    · have hres : AidsOk (window_opened_cb reg m w).1 := by
        rcases window_opened_cb_aids reg m w with heq | ⟨hnone, heq⟩
        · unfold AidsOk
          rw [heq]
          exact h
        · unfold AidsOk
          rw [heq, List.pairwise_append]
          refine ⟨h, by simp, ?_⟩
          intro b hb c hc htb
          rcases List.mem_map.1 hb with ⟨r, hr, hrb⟩
          have hc' : c = w.activity_id := by
            simpa using hc
          subst hc'
          by_cases htw : truthy w.activity_id = true
          · rw [if_pos htw] at hnone
            intro hbc
            exact get_activity_by_id_none hnone r hr (by rw [hrb, hbc])
          · exact truthy_ne htb (by simpa using htw)
      simpa [stepEv, hin] using hres
  | winClosed x =>
    cases hf : scr0.stacked.find? (fun v => v.xid == x) with
    | none => simpa [stepEv, hf] using h
    | some w =>
      have hres : AidsOk (window_closed_cb
          { scr0 with stacked := scr0.stacked.filter (fun v => v.xid != x) }
          m w).1 := by
        unfold window_closed_cb
        by_cases hnw : (w.wtype == WType.normal) = true
        · rw [if_pos hnw]
          unfold remove_activity_by_xid
          cases hg : get_activity_by_xid m w.xid with
          | none => exact h
          | some r0 => exact aidsok_remove _ m r0.oid h
        · rw [if_neg hnw]
          exact h
      simpa [stepEv, hf] using hres
  | activeWinChanged x =>
    have hres : AidsOk (active_window_changed_cb
        { scr0 with active := x } m).1 := by
      unfold AidsOk
      rw [active_window_changed_cb_activities]
      exact h
    simpa [stepEv] using hres
  | raiseWin x =>
    cases hf : scr0.stacked.find? (fun v => v.xid == x) with
    | none => simpa [stepEv, hf] using h
    | some w => simpa [stepEv, hf] using h
  | launch aid sname =>
    cases hreg : reg sname with
    | none => simpa [stepEv, notify_activity_launch, hreg] using h
    | some info =>
      have hok' : truthy aid = true → get_activity_by_id m aid = none := hok
      have hres := aidsok_append m aid h
        (fun ht r hr => get_activity_by_id_none (hok' ht) r hr)
        { oid := m.nextOid, activity_id := aid, activity_info := some info,
          window := none, launching := true, service := false } rfl
      simpa [stepEv, notify_activity_launch, hreg, add_activity, AidsOk]
        using hres
  | launchFailed aid =>
    cases hg : get_activity_by_id m aid with
    | none => simpa [stepEv, notify_activity_launch_failed, hg] using h
    | some r0 =>
      have hres := aidsok_remove scr0 m r0.oid h
      simpa [stepEv, notify_activity_launch_failed, hg] using hres

/-- Distinctness of non-absent activity ids on all `ReachL`-reachable
states. -/
theorem reachL_aidsok (reg : Option String → Option String) (s : Sys)
    (h : ReachL reg s) : AidsOk s.hm := by
  induction h with
  | init => simp [AidsOk, initSys]
  | step s e hr hok ih => exact aidsok_step reg s e ih hok
/-! Claim theorems. -/

/-- C3 (code bug): `getNextActivity`/`getPreviousActivity` are claimed to
return none when the windowed subsequence is empty and an explicit
"not found" result when the pending activity is not in it, and the dead
`len(activities) == 0` guard in the source shows that intent — but
`activities.index(self._pending_activity)` runs first and raises
`ValueError`, so on the empty registry both operations raise instead of
returning none. -/
theorem claim_C3_raises :
    get_next_activity initSys.hm
      = .error "ValueError: list.index(x): x not in list"
    ∧ get_previous_activity initSys.hm
      = .error "ValueError: list.index(x): x not in list"
    ∧ get_activities_with_window initSys.hm = [] := by
  exact ⟨rfl, rfl, rfl⟩

/-- C6: `notifyActivityLaunch` with a bundle service name the registry
cannot resolve raises a lookup error before any mutation: the call returns
an error, and at the system level the launch event leaves the state
unchanged and emits nothing. -/
theorem claim_C6_launch_error (reg : Option String → Option String)
    (s : Sys) (aid sname : Option String) (h : reg sname = none) :
    (∃ msg, notify_activity_launch reg s.hm aid sname = .error msg)
    ∧ stepEv reg s (.launch aid sname) = (s, []) := by
  constructor
  · refine ⟨"ValueError: Activity service name was not found in the bundle registry.", ?_⟩
    unfold notify_activity_launch
    rw [h]
  · simp [stepEv, notify_activity_launch, h]

/-- Witness for C6 at a concrete input. -/
theorem claim_C6_launch_error_witness :
    ((fun _ => (none : Option String)) (some "svc") = none)
    ∧ ((∃ msg, notify_activity_launch (fun _ => none) initSys.hm
          (some "a") (some "svc") = .error msg)
       ∧ stepEv (fun _ => none) initSys (.launch (some "a") (some "svc"))
          = (initSys, [])) :=
  ⟨rfl, claim_C6_launch_error (fun _ => none) initSys (some "a") (some "svc") rfl⟩

/-- C9: a window-closed for a normal window matching no record, and a
launch-failed for an unmatched activity id, each log an error and change
nothing: same registry state, no other emission, no exception. -/
theorem claim_C9_unknown_absorbed (scr : Screen) (m : HomeModel)
    (w : Window) (aid : Option String)
    (hn : w.wtype = WType.normal)
    (h1 : get_activity_by_xid m w.xid = none)
    (h2 : get_activity_by_id m aid = none) :
    (∃ msg, window_closed_cb scr m w = (m, [(Sig.logError msg, m)]))
    ∧ (∃ msg, notify_activity_launch_failed scr m aid
        = (m, [(Sig.logError msg, m)])) := by
  constructor
  · refine ⟨"Model for window does not exist.", ?_⟩
    unfold window_closed_cb remove_activity_by_xid
    rw [if_pos (by rw [hn]; rfl), h1]
  · refine ⟨"Model for activity id does not exist.", ?_⟩
    unfold notify_activity_launch_failed
    rw [h2]

/-- Witness for C9 at a concrete input. -/
theorem claim_C9_unknown_absorbed_witness :
    ((⟨7, WType.normal, none, none, none⟩ : Window).wtype = WType.normal
     ∧ get_activity_by_xid initSys.hm 7 = none
     ∧ get_activity_by_id initSys.hm (some "a") = none)
    ∧ ((∃ msg, window_closed_cb initSys.scr initSys.hm
          ⟨7, WType.normal, none, none, none⟩
          = (initSys.hm, [(Sig.logError msg, initSys.hm)]))
       ∧ (∃ msg, notify_activity_launch_failed initSys.scr initSys.hm
            (some "a") = (initSys.hm, [(Sig.logError msg, initSys.hm)]))) :=
  ⟨⟨rfl, rfl, rfl⟩, claim_C9_unknown_absorbed initSys.scr initSys.hm
    ⟨7, WType.normal, none, none, none⟩ (some "a") rfl rfl rfl⟩

/-- C10: a successful `notifyActivityLaunch` only appends one launching
record and emits `activity-added`; the selectors and all previous records
are untouched and no other notification fires. -/
theorem claim_C10_launch_frame (reg : Option String → Option String)
    (m : HomeModel) (aid sname : Option String) (info : String)
    (h : reg sname = some info) :
    ∃ m' ems, notify_activity_launch reg m aid sname = .ok (m', ems)
      ∧ m'.activities = m.activities ++
          [{ oid := m.nextOid, activity_id := aid,
             activity_info := some info, window := none,
             launching := true, service := false }]
      ∧ m'.pending = m.pending
      ∧ m'.active = m.active
      ∧ ems.map Prod.fst = [Sig.activityAdded m.nextOid] := by
  unfold notify_activity_launch
  rw [h]
  exact ⟨_, _, rfl, rfl, rfl, rfl, rfl⟩

/-- Witness for C10 at a concrete input. -/
theorem claim_C10_launch_frame_witness :
    ((fun s => if s == some "svc" then some "info" else none)
        (some "svc") = some "info")
    ∧ (∃ m' ems, notify_activity_launch
          (fun s => if s == some "svc" then some "info" else none)
          initSys.hm (some "a") (some "svc") = .ok (m', ems)
        ∧ m'.activities = initSys.hm.activities ++
            [{ oid := initSys.hm.nextOid, activity_id := some "a",
               activity_info := some "info", window := none,
               launching := true, service := false }]
        ∧ m'.pending = initSys.hm.pending
        ∧ m'.active = initSys.hm.active
        ∧ ems.map Prod.fst = [Sig.activityAdded initSys.hm.nextOid]) :=
  ⟨rfl, claim_C10_launch_frame _ initSys.hm (some "a") (some "svc")
    "info" rfl⟩
theorem setActiveCall_mem (m : HomeModel) (o : Option Nat) (b : Bool) :
    ∀ e ∈ setActiveCall m o b, ∃ a, e.1 = Sig.remoteSetActive a b := by
  unfold setActiveCall
  cases o with
  | none => simp
  | some a =>
    cases hfo : findByOid m a with
    | none => simp [hfo]
    | some r =>
      simp only [hfo]
      by_cases hs : r.service = true
      · rw [if_pos hs]
        intro e he
        rw [List.mem_singleton] at he
        exact ⟨a, by rw [he]⟩
      · rw [if_neg hs]; simp

theorem setActiveCall_count_zero (m : HomeModel) (o : Option Nat) (b : Bool)
    (sg : Sig) (hsg : ∀ a, sg ≠ Sig.remoteSetActive a b) :
    ((setActiveCall m o b).map Prod.fst).count sg = 0 := by
  rw [List.count_eq_zero]
  intro hmem
  rcases List.mem_map.1 hmem with ⟨e, he, hfe⟩
  rcases setActiveCall_mem m o b e he with ⟨a, ha⟩
  exact hsg a (by rw [← hfe, ha])

theorem setActiveCall_length_le (m : HomeModel) (o : Option Nat) (b : Bool) :
    (setActiveCall m o b).length ≤ 1 := by
  unfold setActiveCall
  cases o with
  | none => simp
  | some a =>
    cases hfo : findByOid m a with
    | none => simp [hfo]
    | some r =>
      simp only [hfo]
      by_cases hs : r.service = true
      · rw [if_pos hs]; simp
      · rw [if_neg hs]; simp

theorem set_active_activity_snd_of_ne (m : HomeModel) (h : Option Nat)
    (hne : m.active ≠ h) :
    (set_active_activity m h).2
      = setActiveCall m m.active false ++ setActiveCall m h true
        ++ [(Sig.activeActivityChanged h, { m with active := h })] := by
  unfold set_active_activity
  rw [if_neg (by simpa using hne)]

/-- C7: both selectors are idempotent no-ops on an identical value, and
setting the active activity to the same record twice emits
`active-activity-changed` exactly once and at most one remote
`SetActive(True)` call. -/
theorem claim_C7_idempotent_setters (m : HomeModel) (x : Nat)
    (hx : m.active ≠ some x) :
    set_pending_activity m m.pending = (m, [])
    ∧ set_active_activity m m.active = (m, [])
    ∧ set_active_activity (set_active_activity m (some x)).1 (some x)
        = ((set_active_activity m (some x)).1, [])
    ∧ (((set_active_activity m (some x)).2
        ++ (set_active_activity (set_active_activity m (some x)).1
              (some x)).2).map Prod.fst).count
        (Sig.activeActivityChanged (some x)) = 1
    ∧ (((set_active_activity m (some x)).2
        ++ (set_active_activity (set_active_activity m (some x)).1
              (some x)).2).map Prod.fst).count
        (Sig.remoteSetActive x true) ≤ 1 := by
  have hsecond : set_active_activity (set_active_activity m (some x)).1 (some x)
      = ((set_active_activity m (some x)).1, []) := by
    rw [set_active_activity_fst]
    unfold set_active_activity
    rw [if_pos (by simp)]
  have hsnd := set_active_activity_snd_of_ne m (some x) hx
  refine ⟨by simp [set_pending_activity], by simp [set_active_activity],
    hsecond, ?_, ?_⟩
  · rw [hsecond, hsnd]
    simp only [List.append_nil, List.map_append, List.count_append]
    rw [setActiveCall_count_zero m m.active false _ (fun a => by simp),
        setActiveCall_count_zero m (some x) true _ (fun a => by simp)]
    simp
  · rw [hsecond, hsnd]
    simp only [List.append_nil, List.map_append, List.count_append]
    rw [setActiveCall_count_zero m m.active false _ (fun a => by simp)]
    have h2 : ((setActiveCall m (some x) true).map Prod.fst).count
        (Sig.remoteSetActive x true) ≤ 1 := by
      refine le_trans (List.count_le_length _ _) ?_
      rw [List.length_map]
      exact setActiveCall_length_le m (some x) true
    have h3 : (([(Sig.activeActivityChanged (some x),
        { m with active := some x })] : List Emission).map Prod.fst).count
        (Sig.remoteSetActive x true) = 0 := by simp
    omega

/-- Witness for C7 at a concrete input. -/
theorem claim_C7_idempotent_setters_witness :
    (initSys.hm.active ≠ some 0)
    ∧ (set_pending_activity initSys.hm initSys.hm.pending = (initSys.hm, [])
       ∧ set_active_activity initSys.hm initSys.hm.active = (initSys.hm, [])
       ∧ set_active_activity (set_active_activity initSys.hm (some 0)).1
            (some 0) = ((set_active_activity initSys.hm (some 0)).1, [])
       ∧ (((set_active_activity initSys.hm (some 0)).2
           ++ (set_active_activity (set_active_activity initSys.hm (some 0)).1
                 (some 0)).2).map Prod.fst).count
           (Sig.activeActivityChanged (some 0)) = 1
       ∧ (((set_active_activity initSys.hm (some 0)).2
           ++ (set_active_activity (set_active_activity initSys.hm (some 0)).1
                 (some 0)).2).map Prod.fst).count
           (Sig.remoteSetActive 0 true) ≤ 1) :=
  ⟨by decide, claim_C7_idempotent_setters initSys.hm 0 (by decide)⟩

/-- C5: opening a normal window whose resolved activity id matches an
existing record reuses it: registry length unchanged, no `activity-added`,
`activity-started` emitted for that record, window attached and
launching flag cleared. -/
theorem claim_C5_reuse (reg : Option String → Option String) (m : HomeModel)
    (w : Window) (r : HomeActivity)
    (hn : w.wtype = WType.normal) (ht : truthy w.activity_id = true)
    (hr : get_activity_by_id m w.activity_id = some r) :
    (window_opened_cb reg m w).1.activities.length = m.activities.length
    ∧ (∀ o, Sig.activityAdded o ∉ (window_opened_cb reg m w).2.map Prod.fst)
    ∧ Sig.activityStarted r.oid ∈ (window_opened_cb reg m w).2.map Prod.fst
    ∧ (∀ r' ∈ (window_opened_cb reg m w).1.activities, r'.oid = r.oid →
        r'.window = some w.xid ∧ r'.launching = false) := by
  rw [window_opened_cb_reuse reg m w r hn ht hr]
  have hattach : ∀ r' ∈ (attachWindow m r.oid w.xid).activities,
      r'.oid = r.oid → r'.window = some w.xid ∧ r'.launching = false := by
    intro r' hr' hro
    rcases mem_setRecord hr' with ⟨r0, hr0, heq⟩
    by_cases hc : (r0.oid == r.oid) = true
    · rw [if_pos hc] at heq
      rw [heq]
      exact ⟨rfl, rfl⟩
    · rw [if_neg hc] at heq
      rw [heq] at hro
      exact absurd hro (by simpa using hc)
  have hlen : (attachWindow m r.oid w.xid).activities.length
      = m.activities.length := by
    show (m.activities.map _).length = _
    rw [List.length_map]
  by_cases hps : m.pending = none
  · have hif : m.pending.isNone = true := by rw [hps]; rfl
    simp only [hif, if_true]
    exact ⟨hlen, fun o => by simp, by simp, hattach⟩
  · have hsome : m.pending.isSome = true := Option.ne_none_iff_isSome.mp hps
    have hif : m.pending.isNone = false :=
      (Option.isNone_eq_false_iff _).mpr hsome
    simp only [hif, Bool.false_eq_true, if_false]
    exact ⟨hlen, fun o => by simp, by simp, hattach⟩

/-- Witness for C5 at a concrete input: a launching record with id `"a"`
is reused when a window carrying id `"a"` opens. -/
theorem claim_C5_reuse_witness :
    ((⟨5, WType.normal, none, some "a", none⟩ : Window).wtype = WType.normal
     ∧ truthy (⟨5, WType.normal, none, some "a", none⟩ : Window).activity_id
        = true
     ∧ get_activity_by_id
         ⟨[⟨0, some "a", none, none, true, false⟩], none, none, 1⟩
         (⟨5, WType.normal, none, some "a", none⟩ : Window).activity_id
       = some ⟨0, some "a", none, none, true, false⟩)
    ∧ ((window_opened_cb (fun _ => none)
          ⟨[⟨0, some "a", none, none, true, false⟩], none, none, 1⟩
          ⟨5, WType.normal, none, some "a", none⟩).1.activities.length
        = (⟨[⟨0, some "a", none, none, true, false⟩], none, none, 1⟩ :
            HomeModel).activities.length
       ∧ (∀ o, Sig.activityAdded o ∉ (window_opened_cb (fun _ => none)
            ⟨[⟨0, some "a", none, none, true, false⟩], none, none, 1⟩
            ⟨5, WType.normal, none, some "a", none⟩).2.map Prod.fst)
       ∧ Sig.activityStarted
           (⟨0, some "a", none, none, true, false⟩ : HomeActivity).oid
           ∈ (window_opened_cb (fun _ => none)
               ⟨[⟨0, some "a", none, none, true, false⟩], none, none, 1⟩
               ⟨5, WType.normal, none, some "a", none⟩).2.map Prod.fst
       ∧ (∀ r' ∈ (window_opened_cb (fun _ => none)
            ⟨[⟨0, some "a", none, none, true, false⟩], none, none, 1⟩
            ⟨5, WType.normal, none, some "a", none⟩).1.activities,
            r'.oid = (⟨0, some "a", none, none, true, false⟩ :
              HomeActivity).oid →
            r'.window = some (⟨5, WType.normal, none, some "a", none⟩ :
              Window).xid ∧ r'.launching = false)) :=
  ⟨⟨rfl, rfl, rfl⟩, claim_C5_reuse (fun _ => none)
    ⟨[⟨0, some "a", none, none, true, false⟩], none, none, 1⟩
    ⟨5, WType.normal, none, some "a", none⟩
    ⟨0, some "a", none, none, true, false⟩ rfl rfl rfl⟩
theorem set_active_activity_sig_shape (m : HomeModel) (h : Option Nat) :
    ∀ e ∈ (set_active_activity m h).2,
      (∃ o, e.1 = Sig.activeActivityChanged o)
      ∨ (∃ a b, e.1 = Sig.remoteSetActive a b) := by
  unfold set_active_activity
  split
  · simp
  · intro e he
    rcases List.mem_append.1 he with he | he
    · rcases List.mem_append.1 he with he | he
      · rcases setActiveCall_mem _ _ _ e he with ⟨a, ha⟩
        exact Or.inr ⟨a, _, ha⟩
      · rcases setActiveCall_mem _ _ _ e he with ⟨a, ha⟩
        exact Or.inr ⟨a, _, ha⟩
    · rw [List.mem_singleton] at he
      exact Or.inl ⟨h, by rw [he]⟩

theorem set_pending_activity_sig_shape (m : HomeModel) (h : Option Nat) :
    ∀ e ∈ (set_pending_activity m h).2,
      ∃ o, e.1 = Sig.pendingActivityChanged o := by
  unfold set_pending_activity
  split
  · simp
  · intro e he
    rw [List.mem_singleton] at he
    exact ⟨h, by rw [he]⟩

theorem set_active_activity_emits (m : HomeModel) (h : Option Nat)
    (hne : m.active ≠ h) :
    Sig.activeActivityChanged h ∈ (set_active_activity m h).2.map Prod.fst := by
  rw [set_active_activity_snd_of_ne m h hne]
  simp

/-- C4: on removal of a tracked record, the active selector is cleared
first (with its notifications), then the pending replacement is computed
(with its notifications), then `activity-removed` fires while the record
is still in `activities`, and only the final state drops it. -/
theorem claim_C4_removal_order (scr : Screen) (m : HomeModel) (oid : Nat)
    (h : oid ∈ m.activities.map HomeActivity.oid) :
    ∃ preA preP s,
      (remove_activity scr m oid).2
        = preA ++ preP ++ [(Sig.activityRemoved oid, s)]
      ∧ oid ∈ s.activities.map HomeActivity.oid
      ∧ (remove_activity scr m oid).1.activities = eraseOid s.activities oid
      ∧ (∀ e ∈ preA, (∃ o, e.1 = Sig.activeActivityChanged o)
          ∨ (∃ a b, e.1 = Sig.remoteSetActive a b))
      ∧ (∀ e ∈ preP, (∃ o, e.1 = Sig.pendingActivityChanged o)
          ∨ (∃ msg, e.1 = Sig.logError msg))
      ∧ (m.active = some oid →
          Sig.activeActivityChanged none ∈ preA.map Prod.fst)
      ∧ (m.active ≠ some oid → preA = [])
      ∧ (m.pending ≠ some oid → preP = [])
      ∧ (remove_activity scr m oid).1.active
          = (if m.active = some oid then none else m.active) := by
  obtain ⟨acts, act, pend, nxt⟩ := m
  unfold remove_activity
  by_cases h1 : (act == some oid) = true
  · have hact : act = some oid := by simpa using h1
    have hcg : scanPending scr ⟨acts, none, pend, nxt⟩
        = scanPending scr ⟨acts, act, pend, nxt⟩ := scanPending_congr _ _ _ rfl
    by_cases h2 : (pend == some oid) = true
    · have hpend : pend = some oid := by simpa using h2
      cases hsc : scanPending scr ⟨acts, act, pend, nxt⟩ with
      | some a =>
        simp only [h1, h2, if_true, set_active_activity_fst,
          set_pending_activity_fst, hcg, hsc]
        refine ⟨(set_active_activity ⟨acts, act, pend, nxt⟩ none).2,
          (set_pending_activity ⟨acts, none, pend, nxt⟩ (some a.oid)).2,
          ⟨acts, none, some a.oid, nxt⟩, rfl, h, rfl,
          set_active_activity_sig_shape _ _,
          fun e he => Or.inl (set_pending_activity_sig_shape _ _ e he),
          fun _ => set_active_activity_emits _ none (by simp [hact]),
          fun hne => absurd hact hne,
          fun hne => absurd hpend hne, by simp [hact]⟩
      | none =>
        simp only [h1, h2, if_true, set_active_activity_fst,
          set_pending_activity_fst, hcg, hsc]
        refine ⟨(set_active_activity ⟨acts, act, pend, nxt⟩ none).2,
          (Sig.logError "No activities are running", ⟨acts, none, pend, nxt⟩)
            :: (set_pending_activity ⟨acts, none, pend, nxt⟩ none).2,
          ⟨acts, none, none, nxt⟩, rfl, h, rfl,
          set_active_activity_sig_shape _ _, ?_,
          fun _ => set_active_activity_emits _ none (by simp [hact]),
          fun hne => absurd hact hne,
          fun hne => absurd hpend hne, by simp [hact]⟩
        intro e he
        rcases List.mem_cons.1 he with rfl | he
        · exact Or.inr ⟨_, rfl⟩
        · exact Or.inl (set_pending_activity_sig_shape _ _ e he)
    · have hpend : ¬ pend = some oid := by simpa using h2
      simp only [h1, h2, if_true, Bool.false_eq_true, if_false,
        set_active_activity_fst]
      refine ⟨(set_active_activity ⟨acts, act, pend, nxt⟩ none).2, [],
        ⟨acts, none, pend, nxt⟩, by simp, h, rfl,
        set_active_activity_sig_shape _ _, by simp,
        fun _ => set_active_activity_emits _ none (by simp [hact]),
        fun hne => absurd hact hne,
        fun _ => rfl, by simp [hact]⟩
  · have hact : ¬ act = some oid := by simpa using h1
    have hcg : scanPending scr ⟨acts, act, pend, nxt⟩
        = scanPending scr ⟨acts, act, pend, nxt⟩ := rfl
    by_cases h2 : (pend == some oid) = true
    · have hpend : pend = some oid := by simpa using h2
      cases hsc : scanPending scr ⟨acts, act, pend, nxt⟩ with
      | some a =>
        simp only [h1, h2, if_true, Bool.false_eq_true, if_false,
          set_pending_activity_fst, hsc]
        refine ⟨[], (set_pending_activity ⟨acts, act, pend, nxt⟩
            (some a.oid)).2,
          ⟨acts, act, some a.oid, nxt⟩, rfl, h, rfl, by simp,
          fun e he => Or.inl (set_pending_activity_sig_shape _ _ e he),
          fun hcon => absurd hcon hact,
          fun _ => rfl,
          fun hne => absurd hpend hne, by simp [hact]⟩
      | none =>
        simp only [h1, h2, if_true, Bool.false_eq_true, if_false,
          set_pending_activity_fst, hsc]
        refine ⟨[], (Sig.logError "No activities are running",
            ⟨acts, act, pend, nxt⟩)
            :: (set_pending_activity ⟨acts, act, pend, nxt⟩ none).2,
          ⟨acts, act, none, nxt⟩, rfl, h, rfl, by simp, ?_,
          fun hcon => absurd hcon hact,
          fun _ => rfl,
          fun hne => absurd hpend hne, by simp [hact]⟩
        intro e he
        rcases List.mem_cons.1 he with rfl | he
        · exact Or.inr ⟨_, rfl⟩
        · exact Or.inl (set_pending_activity_sig_shape _ _ e he)
    · have hpend : ¬ pend = some oid := by simpa using h2
      simp only [h1, h2, Bool.false_eq_true, if_false]
      refine ⟨[], [], ⟨acts, act, pend, nxt⟩, by simp, h, rfl, by simp,
        by simp,
        fun hcon => absurd hcon hact,
        fun _ => rfl, fun _ => rfl, by simp [hact]⟩

/-- Witness for C4 at a concrete input: removing the only (active and
pending) record of a one-record registry. -/
theorem claim_C4_removal_order_witness :
    (0 ∈ (⟨[⟨0, some "a", none, some 5, false, false⟩], some 0, some 0, 1⟩ :
        HomeModel).activities.map HomeActivity.oid)
    ∧ (∃ preA preP s,
        (remove_activity ⟨[], none⟩
          ⟨[⟨0, some "a", none, some 5, false, false⟩], some 0, some 0, 1⟩
          0).2 = preA ++ preP ++ [(Sig.activityRemoved 0, s)]
        ∧ 0 ∈ s.activities.map HomeActivity.oid
        ∧ (remove_activity ⟨[], none⟩
            ⟨[⟨0, some "a", none, some 5, false, false⟩], some 0, some 0, 1⟩
            0).1.activities = eraseOid s.activities 0
        ∧ (∀ e ∈ preA, (∃ o, e.1 = Sig.activeActivityChanged o)
            ∨ (∃ a b, e.1 = Sig.remoteSetActive a b))
        ∧ (∀ e ∈ preP, (∃ o, e.1 = Sig.pendingActivityChanged o)
            ∨ (∃ msg, e.1 = Sig.logError msg))
        ∧ ((⟨[⟨0, some "a", none, some 5, false, false⟩], some 0, some 0, 1⟩ :
              HomeModel).active = some 0 →
            Sig.activeActivityChanged none ∈ preA.map Prod.fst)
        ∧ ((⟨[⟨0, some "a", none, some 5, false, false⟩], some 0, some 0, 1⟩ :
              HomeModel).active ≠ some 0 → preA = [])
        ∧ ((⟨[⟨0, some "a", none, some 5, false, false⟩], some 0, some 0, 1⟩ :
              HomeModel).pending ≠ some 0 → preP = [])
        ∧ (remove_activity ⟨[], none⟩
            ⟨[⟨0, some "a", none, some 5, false, false⟩], some 0, some 0, 1⟩
            0).1.active
            = (if (⟨[⟨0, some "a", none, some 5, false, false⟩], some 0,
                  some 0, 1⟩ : HomeModel).active = some 0
               then none
               else (⟨[⟨0, some "a", none, some 5, false, false⟩], some 0,
                  some 0, 1⟩ : HomeModel).active)) :=
  ⟨by decide, claim_C4_removal_order ⟨[], none⟩
    ⟨[⟨0, some "a", none, some 5, false, false⟩], some 0, some 0, 1⟩ 0
    (by decide)⟩
theorem sysW_reach : Reach regW sysW :=
  Reach.step _ _ (Reach.step _ _ Reach.init)

theorem sysW_reachL : ReachL regW sysW :=
  ReachL.step _ _ (ReachL.step _ _ ReachL.init (fun _ => rfl)) trivial

theorem sysW2_reachL : ReachL regW sysW2 :=
  ReachL.step _ _ sysW_reachL trivial

theorem remove_activity_emits_pending (scr : Screen) (m : HomeModel)
    (oid : Nat) (a : HomeActivity)
    (hp : m.pending = some oid) (hsc : scanPending scr m = some a)
    (hne : a.oid ≠ oid) :
    Sig.pendingActivityChanged (some a.oid)
      ∈ (remove_activity scr m oid).2.map Prod.fst := by
  obtain ⟨acts, act, pend, nxt⟩ := m
  have hp' : pend = some oid := hp
  have h2 : (pend == some oid) = true := by simp [hp']
  have h3 : (pend == some a.oid) = false := by
    rw [hp']
    refine beq_eq_false_iff_ne.mpr ?_
    intro hcon
    exact hne (Option.some.inj hcon).symm
  unfold remove_activity
  by_cases h1 : (act == some oid) = true
  · have hcg : scanPending scr ⟨acts, none, pend, nxt⟩
        = scanPending scr ⟨acts, act, pend, nxt⟩ := scanPending_congr _ _ _ rfl
    simp only [h1, if_true, set_active_activity_fst, h2, hcg, hsc]
    unfold set_pending_activity
    rw [if_neg (by simp [h3])]
    simp
  · simp only [h1, Bool.false_eq_true, if_false, h2, if_true, hsc]
    unfold set_pending_activity
    rw [if_neg (by simp [h3])]
    simp

/-- C2 (amended): when the record being removed is the pending activity
and its window is no longer in the window manager's stacking list (always
the case for window-close removals), the new pending activity is the first
tracked record of the reversed stacking list; it is never the record being
removed; and when another tracked record still has a window on the stack,
the replacement is non-none and `pending-activity-changed` fires with a
non-none payload. -/
theorem claim_C2_replacement (scr : Screen) (m : HomeModel) (oid : Nat)
    (h1 : m.pending = some oid)
    (h2 : ∀ r ∈ m.activities, r.oid = oid → ∀ x, r.window = some x →
      x ∉ scr.stacked.map Window.xid) :
    (remove_activity scr m oid).1.pending
      = (scanPending scr m).map HomeActivity.oid
    ∧ (remove_activity scr m oid).1.pending ≠ some oid
    ∧ ((∃ r ∈ m.activities, r.oid ≠ oid ∧ ∃ x, r.window = some x ∧
          x ∈ scr.stacked.map Window.xid) →
        ∃ o', (remove_activity scr m oid).1.pending = some o'
          ∧ Sig.pendingActivityChanged (some o')
              ∈ (remove_activity scr m oid).2.map Prod.fst) := by
  have hpend : (remove_activity scr m oid).1.pending
      = (scanPending scr m).map HomeActivity.oid := by
    rw [remove_activity_fst]
    show (if m.pending == some oid then _ else _) = _
    rw [if_pos (by simp [h1])]
  have hscanne : ∀ a, scanPending scr m = some a → a.oid ≠ oid := by
    intro a hsc haeq
    rcases scanPending_some hsc with ⟨hamem, w, hwmem, hwx⟩
    exact h2 a hamem haeq w.xid hwx (List.mem_map_of_mem Window.xid hwmem)
  refine ⟨hpend, ?_, ?_⟩
  · rw [hpend]
    cases hsc : scanPending scr m with
    | none => simp
    | some a =>
      simp only [Option.map_some']
      intro hcon
      exact hscanne a hsc (Option.some.inj hcon)
  · rintro ⟨r, hr, hne, x, hwx, hxmem⟩
    have hs : (scanPending scr m).isSome = true :=
      scanPending_isSome hr hwx hxmem
    cases hsc : scanPending scr m with
    | none => rw [hsc] at hs; exact absurd hs (by simp)
    | some a =>
      refine ⟨a.oid, by rw [hpend, hsc]; rfl, ?_⟩
      exact remove_activity_emits_pending scr m oid a h1 hsc (hscanne a hsc)

/-- Witness for C2 at a concrete input: the pending record's window
(xid 5) has left the stack; the scan picks the other record (xid 6). -/
theorem claim_C2_replacement_witness :
    ((⟨[⟨0, some "a", none, some 5, false, false⟩,
        ⟨1, some "b", none, some 6, false, false⟩], none, some 0, 2⟩ :
        HomeModel).pending = some 0
     ∧ (∀ r ∈ (⟨[⟨0, some "a", none, some 5, false, false⟩,
          ⟨1, some "b", none, some 6, false, false⟩], none, some 0, 2⟩ :
          HomeModel).activities, r.oid = 0 → ∀ x, r.window = some x →
          x ∉ (⟨[⟨6, WType.normal, none, none, none⟩], none⟩ :
            Screen).stacked.map Window.xid))
    ∧ ((remove_activity ⟨[⟨6, WType.normal, none, none, none⟩], none⟩
          ⟨[⟨0, some "a", none, some 5, false, false⟩,
            ⟨1, some "b", none, some 6, false, false⟩], none, some 0, 2⟩
          0).1.pending
        = (scanPending ⟨[⟨6, WType.normal, none, none, none⟩], none⟩
            ⟨[⟨0, some "a", none, some 5, false, false⟩,
              ⟨1, some "b", none, some 6, false, false⟩], none, some 0, 2⟩
           ).map HomeActivity.oid
       ∧ (remove_activity ⟨[⟨6, WType.normal, none, none, none⟩], none⟩
            ⟨[⟨0, some "a", none, some 5, false, false⟩,
              ⟨1, some "b", none, some 6, false, false⟩], none, some 0, 2⟩
            0).1.pending ≠ some 0
       ∧ ((∃ r ∈ (⟨[⟨0, some "a", none, some 5, false, false⟩,
              ⟨1, some "b", none, some 6, false, false⟩], none, some 0, 2⟩ :
              HomeModel).activities, r.oid ≠ 0 ∧ ∃ x, r.window = some x ∧
              x ∈ (⟨[⟨6, WType.normal, none, none, none⟩], none⟩ :
                Screen).stacked.map Window.xid) →
            ∃ o', (remove_activity
                ⟨[⟨6, WType.normal, none, none, none⟩], none⟩
                ⟨[⟨0, some "a", none, some 5, false, false⟩,
                  ⟨1, some "b", none, some 6, false, false⟩], none,
                  some 0, 2⟩ 0).1.pending = some o'
              ∧ Sig.pendingActivityChanged (some o')
                  ∈ (remove_activity
                      ⟨[⟨6, WType.normal, none, none, none⟩], none⟩
                      ⟨[⟨0, some "a", none, some 5, false, false⟩,
                        ⟨1, some "b", none, some 6, false, false⟩], none,
                        some 0, 2⟩ 0).2.map Prod.fst)) :=
  ⟨⟨rfl, by decide⟩, claim_C2_replacement
    ⟨[⟨6, WType.normal, none, none, none⟩], none⟩
    ⟨[⟨0, some "a", none, some 5, false, false⟩,
      ⟨1, some "b", none, some 6, false, false⟩], none, some 0, 2⟩
    0 rfl (by decide)⟩

/-- C2 counterexample: a launch-failed removal of a windowed pending
record leaves its window in the stacking list, so the scan re-selects the
record being removed — after the removal `pendingActivity` still
references the removed record (and is not none, although no other
activity exists). -/
theorem claim_C2_counterexample :
    (runEvents regW initSys
      [.launch (some "a") (some "s"),
       .winOpened ⟨1, WType.normal, none, some "a", none⟩,
       .launchFailed (some "a")]).hm.pending = some 0
    ∧ (runEvents regW initSys
      [.launch (some "a") (some "s"),
       .winOpened ⟨1, WType.normal, none, some "a", none⟩,
       .launchFailed (some "a")]).hm.activities = [] := by
  exact ⟨rfl, rfl⟩

/-- C1 (amended): on every reachable state, `pendingActivity` is none
only when no tracked record has a window; and whenever it is set and
still references a member of `activities`, that member has a window. -/
theorem claim_C1_pending_windowed (reg : Option String → Option String)
    (s : Sys) (h : Reach reg s) :
    (s.hm.pending = none → ∀ r ∈ s.hm.activities, r.window = none)
    ∧ (∀ o, s.hm.pending = some o → ∀ r ∈ s.hm.activities, r.oid = o →
        r.window.isSome = true) := by
  have hi := reach_inv reg s h
  exact ⟨hi.pendNone, hi.pendWin⟩

/-- Witness for C1 on the concrete reachable scenario `sysW`. -/
theorem claim_C1_pending_windowed_witness :
    (sysW.hm.pending = none → ∀ r ∈ sysW.hm.activities, r.window = none)
    ∧ (∀ o, sysW.hm.pending = some o → ∀ r ∈ sysW.hm.activities,
        r.oid = o → r.window.isSome = true) :=
  claim_C1_pending_windowed regW sysW sysW_reach

/-- C1 counterexample: after a single launch notification the registry is
non-empty while `pendingActivity` is none (refuting "none only when
`activities` is empty"); and after launch, window-open (xid 2 then xid 1),
activation of xid 1 and a launch-failure for `"a"`, a windowed record is
still tracked while `pendingActivity` references the removed record,
which is no longer an element of `activities`. -/
theorem claim_C1_counterexample :
    ((runEvents regW initSys [.launch (some "a") (some "s")]).hm.pending
        = none
     ∧ (runEvents regW initSys
          [.launch (some "a") (some "s")]).hm.activities ≠ [])
    ∧ ((∃ r ∈ (runEvents regW initSys
          [.launch (some "a") (some "s"),
           .winOpened ⟨2, WType.normal, none, some "b", none⟩,
           .winOpened ⟨1, WType.normal, none, some "a", none⟩,
           .activeWinChanged (some 1),
           .launchFailed (some "a")]).hm.activities,
          r.window.isSome = true)
       ∧ (runEvents regW initSys
          [.launch (some "a") (some "s"),
           .winOpened ⟨2, WType.normal, none, some "b", none⟩,
           .winOpened ⟨1, WType.normal, none, some "a", none⟩,
           .activeWinChanged (some 1),
           .launchFailed (some "a")]).hm.pending = some 0
       ∧ (∀ r ∈ (runEvents regW initSys
          [.launch (some "a") (some "s"),
           .winOpened ⟨2, WType.normal, none, some "b", none⟩,
           .winOpened ⟨1, WType.normal, none, some "a", none⟩,
           .activeWinChanged (some 1),
           .launchFailed (some "a")]).hm.activities, r.oid ≠ 0)) := by
  refine ⟨⟨rfl, by decide⟩, by decide, rfl, by decide⟩

theorem aids_pairwise_ne {l : List HomeActivity}
    (h : (l.map HomeActivity.activity_id).Pairwise
      (fun a b => truthy a = true → a ≠ b)) :
    ∀ r1 ∈ l, ∀ r2 ∈ l, r1 ≠ r2 → truthy r1.activity_id = true →
      r1.activity_id ≠ r2.activity_id := by
  induction l with
  | nil => simp
  | cons r l ih =>
    rw [List.map_cons, List.pairwise_cons] at h
    intro r1 h1 r2 h2 hne ht
    rcases List.mem_cons.1 h1 with rfl | h1t
    · rcases List.mem_cons.1 h2 with rfl | h2t
      · exact absurd rfl hne
      · exact h.1 _ (List.mem_map_of_mem _ h2t) ht
    · rcases List.mem_cons.1 h2 with rfl | h2t
      · intro heq
        by_cases ht2 : truthy r2.activity_id = true
        · exact h.1 _ (List.mem_map_of_mem _ h1t) ht2 heq.symm
        · rw [heq] at ht
          exact ht2 ht
      · exact ih h.2 r1 h1t r2 h2t hne ht

/-- C8 (amended): on every state reachable while launch notifications
never reuse a tracked non-absent activity id (`ReachL`), no two distinct
records share the same non-absent (truthy) activity id; `onWindowOpened`
needs no such proviso since it reuses the matching record, but
`notifyActivityLaunch` performs no duplicate check of its own. -/
theorem claim_C8_distinct_ids (reg : Option String → Option String)
    (s : Sys) (h : ReachL reg s) :
    ∀ r1 ∈ s.hm.activities, ∀ r2 ∈ s.hm.activities, r1 ≠ r2 →
      truthy r1.activity_id = true →
      r1.activity_id ≠ r2.activity_id :=
  aids_pairwise_ne (reachL_aidsok reg s h)

/-- Witness for C8 on the concrete reachable two-record scenario
`sysW2`. -/
theorem claim_C8_distinct_ids_witness :
    (⟨0, some "a", some "S", some 1, false, false⟩ : HomeActivity)
      ∈ sysW2.hm.activities
    ∧ (⟨1, some "b", none, some 2, false, false⟩ : HomeActivity)
      ∈ sysW2.hm.activities
    ∧ (⟨0, some "a", some "S", some 1, false, false⟩ : HomeActivity)
      ≠ ⟨1, some "b", none, some 2, false, false⟩
    ∧ truthy (⟨0, some "a", some "S", some 1, false, false⟩ :
        HomeActivity).activity_id = true
    ∧ (⟨0, some "a", some "S", some 1, false, false⟩ :
        HomeActivity).activity_id
      ≠ (⟨1, some "b", none, some 2, false, false⟩ :
        HomeActivity).activity_id :=
  ⟨by decide, by decide, by decide, rfl,
   claim_C8_distinct_ids regW sysW2 sysW2_reachL _ (by decide) _ (by decide)
     (by decide) rfl⟩

/-- C8 counterexample: two launch notifications with the same activity id
`"a"` create two distinct records sharing the same non-absent activity id
— `notifyActivityLaunch` performs no duplicate check. -/
theorem claim_C8_counterexample :
    ∃ r1 ∈ (runEvents regW initSys
        [.launch (some "a") (some "s"),
         .launch (some "a") (some "s")]).hm.activities,
      ∃ r2 ∈ (runEvents regW initSys
        [.launch (some "a") (some "s"),
         .launch (some "a") (some "s")]).hm.activities,
      r1 ≠ r2 ∧ truthy r1.activity_id = true
        ∧ r1.activity_id = r2.activity_id := by
  decide
end Sugar
